import Mathlib

/-!
# Design moment of a doubly reinforced beam: embedding of `moment_calculation_MRd.cpp`

The program reads bar groups for the tension and the compression layer, marches the
neutral-axis depth upward in steps of 0.01 mm until the net axial force drops to the
tolerance, reports for both layers whether the steel yields, and prints the design moment.

Conventions of the embedding.

* C++ `double` values are exact rationals (`ℚ`); decimal literals such as `0.01` or `1.15`
  are the rationals they denote. The rounding of IEEE arithmetic is left out there; it is
  carried by a second embedding of the same statements, the binary64 replay (`F64`,
  `tensionLoop64`, `loopBody64`), used where the rounding decides the outcome.
* The local variables of `main` that the loop mutates form the record `SolverState`.
  Locals that C++ leaves uninitialised take their first value from an arbitrary record `u`.
* The `while` loop is `searchLoop`, driven by a fuel counter: `none` means that the fuel ran
  out while the loop condition still held.
* Standard input is a list of integer tokens, consumed by `cin >> int` (a failed read leaves
  the variable as it was and makes every later read fail).
-/

namespace BeamMRd

/-! ## Constants (source lines 27-47) -/

/-- Source line 27. -/
def pi : ℚ := 3141592653589793238463 / 1000000000000000000000

/-- Width of the section in mm (line 30). -/
def b : ℚ := 300
/-- Overall depth in mm (line 31). -/
def h : ℚ := 550
/-- Cover of the tension layer in mm (line 32). -/
def d_1 : ℚ := 50
/-- Cover of the compression layer in mm (line 33). -/
def d_2 : ℚ := 50
/-- Effective depth in mm (line 34). -/
def d : ℚ := 500

/-- Characteristic strength of concrete in MPa (line 37). -/
def f_ck : ℚ := 25
/-- Safety factor for concrete, `1.5` (line 38). -/
def g_c : ℚ := 15 / 10
/-- Ultimate concrete strain, `0.0035` (line 39). -/
def e_cu : ℚ := 35 / 10000
/-- Characteristic strength of reinforcing steel in MPa (line 40). -/
def f_yk : ℚ := 500
/-- Safety factor for steel, `1.15` (line 41). -/
def g_s : ℚ := 115 / 100
/-- Modulus of steel in GPa (line 42). -/
def E_s : ℚ := 200
/-- Factor for bending, `0.85` (line 43). -/
def a_cc : ℚ := 85 / 100
/-- Design strength of concrete in MPa (line 44). -/
def f_cd : ℚ := a_cc * f_ck / g_c
/-- Design strength of steel in MPa (line 45). -/
def f_yd : ℚ := f_yk / g_s
/-- Design yield strain of steel (line 46). -/
def e_yd : ℚ := f_yd / (1000 * E_s)
/-- Limit of `x / d` from EC2 (line 47). -/
def j_lim : ℚ := if f_ck ≤ 50 then 45 / 100 else 35 / 100

/-- Loop tolerance in kN, `0.1` (line 99). -/
def tolerance : ℚ := 1 / 10

/-! ## Input loops (source lines 59-95)

Standard input is a list of integer tokens. The statement `cin >> v` for an `int v` stores
the next token when it fits 32 bits. At the end of the input it stores nothing and the
stream fails; for a token outside the 32-bit range it stores the nearest limit and the
stream fails. After a failure every later read stores nothing. An input loop whose
`quantity` is nonzero when the stream fails therefore never leaves. -/

/-- Largest value of an `int`. -/
def INT_MAX : Int := 2147483647

/-- Smallest value of an `int`. -/
def INT_MIN : Int := -2147483648

/-- Result of the tension input loop. -/
inductive TensionOutcome where
  /-- The branch `exit(1)` of line 66, with the tokens that were never read. -/
  | exit1 (unread : List Int)
  /-- The `break` of line 69: accumulated area and the tokens still unread. -/
  | proceed (area : ℚ) (unread : List Int)
  /-- A read failed while `quantity` was nonzero: the loop runs forever. -/
  | neverLeaves
  deriving DecidableEq, Repr

/-- Lines 59-77, entered with the current values of `tension_surface_till_now` and of the
global `quantity`: read `quantity`; on `0` either exit with status 1 (area still zero) or
leave the loop; otherwise read `bar_diameter` and accumulate
`quantity * (pi * bar_diameter * bar_diameter) / 4`. -/
def tensionLoop (tension_surface_till_now : ℚ) (quantity : Int) : List Int → TensionOutcome
  | [] =>
    if quantity = 0 then
      if tension_surface_till_now = 0 then .exit1 []
      else .proceed tension_surface_till_now []
    else .neverLeaves
  | t :: rest =>
    if t < INT_MIN ∨ INT_MAX < t then .neverLeaves
    else if t = 0 then
      if tension_surface_till_now = 0 then .exit1 rest else .proceed tension_surface_till_now rest
    else
      match rest with
      | [] => .neverLeaves
      | bar_diameter :: rest2 =>
        if bar_diameter < INT_MIN ∨ INT_MAX < bar_diameter then .neverLeaves
        else
          tensionLoop
            (tension_surface_till_now + t * (pi * bar_diameter * bar_diameter) / 4) t rest2

/-- Result of the compression input loop. -/
inductive CompressionOutcome where
  /-- The `break` of line 86: accumulated area and the tokens still unread. -/
  | proceed (area : ℚ) (unread : List Int)
  /-- A read failed while `quantity` was nonzero: the loop runs forever. -/
  | neverLeaves
  deriving DecidableEq, Repr

/-- Lines 81-93: the same loop for the compression layer; a `quantity` of `0` always
leaves the loop. -/
def compressionLoop (compression_surface_till_now : ℚ) (quantity : Int) :
    List Int → CompressionOutcome
  | [] =>
    if quantity = 0 then .proceed compression_surface_till_now [] else .neverLeaves
  | t :: rest =>
    if t < INT_MIN ∨ INT_MAX < t then .neverLeaves
    else if t = 0 then .proceed compression_surface_till_now rest
    else
      match rest with
      | [] => .neverLeaves
      | bar_diameter :: rest2 =>
        if bar_diameter < INT_MIN ∨ INT_MAX < bar_diameter then .neverLeaves
        else
          compressionLoop
            (compression_surface_till_now + t * (pi * bar_diameter * bar_diameter) / 4) t
            rest2

/-- Tokens typed for a sequence of bar groups `(quantity, bar_diameter)`. -/
def groupTokens : List (Int × Int) → List Int
  | [] => []
  | g :: gs => g.1 :: g.2 :: groupTokens gs

/-- Area accumulated from `acc` over a sequence of bar groups (statement of line 76). -/
def accumulate (acc : ℚ) : List (Int × Int) → ℚ
  | [] => acc
  | g :: gs => accumulate (acc + g.1 * (pi * g.2 * g.2) / 4) gs

/-! ## Equilibrium search (source lines 97-168) -/

/-- Locals of `main` that the search loop reads or writes. -/
structure SolverState where
  x_distance : ℚ
  total_forces : ℚ
  j : ℚ
  F_c : ℚ
  F_s1 : ℚ
  F_s2 : ℚ
  e_s1 : ℚ
  e_s2 : ℚ
  tension_s1 : ℚ
  tension_s2 : ℚ
  deriving DecidableEq, Repr

/-- Lines 97-98: `x_distance = 0`, `total_forces = 1000`; the other locals are declared
without a value and start with whatever `u` holds. -/
def initState (u : SolverState) : SolverState :=
  { u with x_distance := 0, total_forces := 1000 }

/-- The nested `if` of lines 121-137 (and, with `e_s2`/`tension_s2`, of lines 141-157):
the new value of the stress variable, `prev` being its value before the statement.
Neither branch runs when the strain is exactly `0`, so the variable keeps `prev`. -/
def steelStress (prev e : ℚ) : ℚ :=
  if e < 0 then
    if (-1) * e < e_yd then e * E_s * 1000 else (-1) * f_yd
  else if e > 0 then
    if e < e_yd then e * E_s * 1000 else f_yd
  else prev

/-- Lines 111-167: one pass through the body of the `while` loop. -/
def loopBody (As1 As2 : ℚ) (s : SolverState) : SolverState :=
  let x_distance := s.x_distance + 1 / 100
  let j := x_distance / d
  if j ≤ j_lim then
    let e_s1 := e_cu * (d - x_distance) / x_distance
    let e_s2 := e_cu * (d_2 - x_distance) / x_distance
    let F_c := -1 * (8 / 10) * x_distance * b * f_cd / 1000
    let tension_s1 := steelStress s.tension_s1 e_s1
    let F_s1 := As1 * tension_s1 / 1000
    let tension_s2 := steelStress s.tension_s2 e_s2
    let F_s2 := As2 * tension_s2 / 1000
    let total_forces := F_s1 + F_c + F_s2
    { x_distance := x_distance, total_forces := total_forces, j := j, F_c := F_c,
      F_s1 := F_s1, F_s2 := F_s2, e_s1 := e_s1, e_s2 := e_s2,
      tension_s1 := tension_s1, tension_s2 := tension_s2 }
  else
    { s with x_distance := x_distance, j := j }

/-- Lines 109-168: `while (total_forces > tolerance) body`. The result is the state in
which the condition first fails, or `none` when `fuel` passes were not enough. -/
def searchLoop (As1 As2 : ℚ) : Nat → SolverState → Option SolverState
  | 0, s => if s.total_forces > tolerance then none else some s
  | fuel + 1, s =>
    if s.total_forces > tolerance then searchLoop As1 As2 fuel (loopBody As1 As2 s)
    else some s

/-- State after `n` passes through the loop body, the loop condition not being looked at. -/
def iter (As1 As2 : ℚ) (u : SolverState) : Nat → SolverState
  | 0 => initState u
  | n + 1 => loopBody As1 As2 (iter As1 As2 u n)

/-! ## Report (source lines 172-232) -/

/-- The two messages a layer can get. -/
inductive YieldMsg where
  | notYield
  | yield
  deriving DecidableEq, Repr

/-- Lines 172-187 (tension layer) and 189-204 (compression layer): the message printed
for a layer with final strain `e`, `none` when no statement prints. -/
def yieldReport (e : ℚ) : Option YieldMsg :=
  if e > 0 then
    if e < e_yd then some .notYield else some .yield
  else if e < 0 then
    if (-1) * e < e_yd then some .notYield else some .yield
  else none

/-- Lines 206-226: the design moment in kNm. -/
def designMoment (s : SolverState) : ℚ :=
  let righting_lever_zc := d - (4 / 10) * s.x_distance
  let righting_lever_zs := d - d_2
  let moment_F_c :=
    if s.F_c < 0 then (-1) * s.F_c * righting_lever_zc / 1000
    else s.F_c * righting_lever_zc / 1000
  let moment_F_s2 :=
    if s.F_s2 < 0 then (-1) * s.F_s2 * righting_lever_zs / 1000
    else s.F_s2 * righting_lever_zs / 1000
  moment_F_c + moment_F_s2

/-- What a completed run prints. -/
structure Report where
  As1 : ℚ
  As2 : ℚ
  tensionMsg : Option YieldMsg
  compressionMsg : Option YieldMsg
  design_moment_Mrd : ℚ
  x_distance : ℚ
  deriving DecidableEq, Repr

/-- How a run of `main` ends. -/
inductive RunResult where
  /-- The call `exit(status)`. -/
  | exited (status : Nat)
  /-- An input loop never leaves (a read failed while `quantity` was nonzero). -/
  | inputLoopNeverLeft
  /-- The search loop was still running when the fuel ran out. -/
  | outOfFuel
  /-- The statement `return (0)` was reached after printing the report. -/
  | finished (r : Report)
  deriving DecidableEq, Repr

/-- Lines 79-233, the part of `main` after the tension loop has been left with the area
`As1`: the compression loop (entered with `quantity = 0`, the value that ended the tension
loop), the search and the report. -/
def afterTension (u : SolverState) (As1 : ℚ) (unread : List Int) (fuel : Nat) : RunResult :=
  match compressionLoop 0 0 unread with
  | .neverLeaves => .inputLoopNeverLeft
  | .proceed As2 _ =>
    match searchLoop As1 As2 fuel (initState u) with
    | none => .outOfFuel
    | some s =>
      .finished
        { As1 := As1, As2 := As2, tensionMsg := yieldReport s.e_s1,
          compressionMsg := yieldReport s.e_s2, design_moment_Mrd := designMoment s,
          x_distance := s.x_distance }

/-- The function `main`, lines 55-233. The globals `quantity` and the two areas start
at `0`. -/
def mainProgram (u : SolverState) (input : List Int) (fuel : Nat) : RunResult :=
  match tensionLoop 0 0 input with
  | .exit1 _ => .exited 1
  | .neverLeaves => .inputLoopNeverLeft
  | .proceed As1 rest => afterTension u As1 rest fuel

/-! ## Binary64 replay of the search (source lines 27-47, 76, 97-168)

The same statements with every arithmetic operation rounded as IEEE binary64 does (round to
nearest, ties to even). A binary64 value is kept as `m * 2 ^ e` with integers `m` and `e`.
Overflow, subnormal values and division by zero are outside this replay; they do not occur
at the inputs it is used for. -/

/-- Number of binary digits of `n` (counted up to `fuel` digits). -/
def bitLen : Nat → Nat → Nat
  | 0, _ => 0
  | fuel + 1, n => if n = 0 then 0 else bitLen fuel (n / 2) + 1

/-- Nearest natural number to `n / dn`, ties to the even one. -/
def roundHalfEven (n dn : Nat) : Nat :=
  if 2 * (n % dn) < dn then n / dn
  else if dn < 2 * (n % dn) then n / dn + 1
  else if (n / dn) % 2 = 0 then n / dn else n / dn + 1

/-- A binary64 value `m * 2 ^ e`. -/
structure F64 where
  m : Int
  e : Int
  deriving DecidableEq, Repr

/-- The binary64 value nearest to `num / den * 2 ^ e`: the quotient is scaled by a power of
two into `[2 ^ 52, 2 ^ 53)` and rounded to an integer mantissa there. -/
def roundQ (num : Int) (den : Nat) (e : Int) : F64 :=
  if num = 0 then ⟨0, 0⟩
  else
    let a := num.natAbs
    let k0 : Int := 53 - ((bitLen 4096 a : Int) - (bitLen 4096 den : Int))
    let big : Bool :=
      if 0 ≤ k0 then decide (2 ^ 53 * den ≤ a * 2 ^ k0.toNat)
      else decide (2 ^ 53 * (den * 2 ^ (-k0).toNat) ≤ a)
    let k : Int := if big then k0 - 1 else k0
    let mant : Nat :=
      if 0 ≤ k then roundHalfEven (a * 2 ^ k.toNat) den
      else roundHalfEven a (den * 2 ^ (-k).toNat)
    ⟨if num < 0 then -(mant : Int) else (mant : Int), e - k⟩

/-- Rounded sum. -/
def F64.add (x y : F64) : F64 :=
  roundQ (x.m * 2 ^ (x.e - min x.e y.e).toNat + y.m * 2 ^ (y.e - min x.e y.e).toNat) 1
    (min x.e y.e)

/-- Rounded difference. -/
def F64.sub (x y : F64) : F64 := F64.add x ⟨-y.m, y.e⟩

/-- Rounded product. -/
def F64.mul (x y : F64) : F64 := roundQ (x.m * y.m) 1 (x.e + y.e)

/-- Rounded quotient (for a nonzero divisor). -/
def F64.div (x y : F64) : F64 :=
  roundQ (if y.m < 0 then -x.m else x.m) y.m.natAbs (x.e - y.e)

/-- The comparison `x < y`. -/
def F64.lt (x y : F64) : Bool :=
  decide (x.m * 2 ^ (x.e - min x.e y.e).toNat < y.m * 2 ^ (y.e - min x.e y.e).toNat)

/-- The comparison `x <= y`. -/
def F64.le (x y : F64) : Bool :=
  decide (x.m * 2 ^ (x.e - min x.e y.e).toNat ≤ y.m * 2 ^ (y.e - min x.e y.e).toNat)

/-- The binary64 value of the decimal literal or integer `num / den`. -/
def ofDec (num : Int) (den : Nat) : F64 := roundQ num den 0

/-- Line 27. -/
def pi64 : F64 := ofDec 3141592653589793238463 1000000000000000000000
/-- Line 39. -/
def e_cu64 : F64 := ofDec 35 10000
/-- Line 44: `a_cc * f_ck / g_c`. -/
def f_cd64 : F64 := F64.div (F64.mul (ofDec 85 100) (ofDec 25 1)) (ofDec 15 10)
/-- Line 45: `f_yk / g_s`. -/
def f_yd64 : F64 := F64.div (ofDec 500 1) (ofDec 115 100)
/-- Line 46: `f_yd / (1000 * E_s)`. -/
def e_yd64 : F64 := F64.div f_yd64 (ofDec 200000 1)
/-- Line 47, `f_ck = 25 <= 50`. -/
def j_lim64 : F64 := ofDec 45 100
/-- Line 99. -/
def tolerance64 : F64 := ofDec 1 10

/-- Line 76 over a sequence of bar groups:
`acc + quantity * (pi * bar_diameter * bar_diameter) / 4`. -/
def accumulate64 (acc : F64) : List (Int × Int) → F64
  | [] => acc
  | g :: gs =>
    accumulate64
      (F64.add acc
        (F64.div (F64.mul (ofDec g.1 1) (F64.mul (F64.mul pi64 (ofDec g.2 1)) (ofDec g.2 1)))
          (ofDec 4 1))) gs

/-- Result of the tension input loop with the area kept in binary64. -/
inductive TensionOutcome64 where
  /-- The branch `exit(1)` of line 66, with the tokens that were never read. -/
  | exit1 (unread : List Int)
  /-- The `break` of line 69: accumulated area and the tokens still unread. -/
  | proceed (area : F64) (unread : List Int)
  /-- A read failed while `quantity` was nonzero: the loop runs forever. -/
  | neverLeaves
  deriving DecidableEq, Repr

/-- Lines 59-77 with the area accumulated in binary64; the test of line 64 compares the
rounded sum with `0`. -/
def tensionLoop64 (tension_surface_till_now : F64) (quantity : Int) :
    List Int → TensionOutcome64
  | [] =>
    if quantity = 0 then
      if tension_surface_till_now.m = 0 then .exit1 []
      else .proceed tension_surface_till_now []
    else .neverLeaves
  | t :: rest =>
    if t < INT_MIN ∨ INT_MAX < t then .neverLeaves
    else if t = 0 then
      if tension_surface_till_now.m = 0 then .exit1 rest
      else .proceed tension_surface_till_now rest
    else
      match rest with
      | [] => .neverLeaves
      | bar_diameter :: rest2 =>
        if bar_diameter < INT_MIN ∨ INT_MAX < bar_diameter then .neverLeaves
        else
          tensionLoop64
            (F64.add tension_surface_till_now
              (F64.div
                (F64.mul (ofDec t 1)
                  (F64.mul (F64.mul pi64 (ofDec bar_diameter 1)) (ofDec bar_diameter 1)))
                (ofDec 4 1))) t rest2

/-- The locals of the search loop as binary64 values. -/
structure SolverState64 where
  x_distance : F64
  total_forces : F64
  j : F64
  F_c : F64
  F_s1 : F64
  F_s2 : F64
  e_s1 : F64
  e_s2 : F64
  tension_s1 : F64
  tension_s2 : F64
  deriving DecidableEq, Repr

/-- Lines 97-98 in binary64, the uninitialised locals taken as `0`. -/
def initState64 : SolverState64 :=
  ⟨⟨0, 0⟩, ofDec 1000 1, ⟨0, 0⟩, ⟨0, 0⟩, ⟨0, 0⟩, ⟨0, 0⟩, ⟨0, 0⟩, ⟨0, 0⟩, ⟨0, 0⟩, ⟨0, 0⟩⟩

/-- Lines 121-137 and 141-157 in binary64. -/
def steelStress64 (prev e : F64) : F64 :=
  if F64.lt e ⟨0, 0⟩ then
    if F64.lt (F64.mul (ofDec (-1) 1) e) e_yd64 then
      F64.mul (F64.mul e (ofDec 200 1)) (ofDec 1000 1)
    else F64.mul (ofDec (-1) 1) f_yd64
  else if F64.lt ⟨0, 0⟩ e then
    if F64.lt e e_yd64 then F64.mul (F64.mul e (ofDec 200 1)) (ofDec 1000 1) else f_yd64
  else prev

/-- Lines 111-167 in binary64: one pass through the body of the `while` loop. -/
def loopBody64 (As1 As2 : F64) (s : SolverState64) : SolverState64 :=
  let x_distance := F64.add s.x_distance (ofDec 1 100)
  let j := F64.div x_distance (ofDec 500 1)
  if F64.le j j_lim64 then
    let e_s1 := F64.div (F64.mul e_cu64 (F64.sub (ofDec 500 1) x_distance)) x_distance
    let e_s2 := F64.div (F64.mul e_cu64 (F64.sub (ofDec 50 1) x_distance)) x_distance
    let F_c :=
      F64.div
        (F64.mul
          (F64.mul (F64.mul (F64.mul (ofDec (-1) 1) (ofDec 8 10)) x_distance) (ofDec 300 1))
          f_cd64)
        (ofDec 1000 1)
    let tension_s1 := steelStress64 s.tension_s1 e_s1
    let F_s1 := F64.div (F64.mul As1 tension_s1) (ofDec 1000 1)
    let tension_s2 := steelStress64 s.tension_s2 e_s2
    let F_s2 := F64.div (F64.mul As2 tension_s2) (ofDec 1000 1)
    let total_forces := F64.add (F64.add F_s1 F_c) F_s2
    { x_distance := x_distance, total_forces := total_forces, j := j, F_c := F_c,
      F_s1 := F_s1, F_s2 := F_s2, e_s1 := e_s1, e_s2 := e_s2,
      tension_s1 := tension_s1, tension_s2 := tension_s2 }
  else
    { s with x_distance := x_distance, j := j }

/-- State after `n` passes through the binary64 loop body. -/
def iter64 (As1 As2 : F64) : Nat → SolverState64
  | 0 => initState64
  | n + 1 => loopBody64 As1 As2 (iter64 As1 As2 n)

/-! ## Closed forms used in the proofs -/

/-- Strain of the tension layer at the trial depth `n / 100` (formula of line 116). -/
def strain1 (n : Nat) : ℚ := e_cu * (d - (n : ℚ) / 100) / ((n : ℚ) / 100)

/-- Strain of the compression layer at the trial depth `n / 100` (formula of line 117). -/
def strain2 (n : Nat) : ℚ := e_cu * (d_2 - (n : ℚ) / 100) / ((n : ℚ) / 100)

/-- The bilinear law written as a clamp of the elastic stress to `[-f_yd, f_yd]`. -/
def clampStress (e : ℚ) : ℚ := max (-f_yd) (min f_yd (e * E_s * 1000))

/-- Value of `tension_s2` after pass `n` of the loop body, `1 ≤ n ≤ 22500`: the clamp of
the current strain, except at `n = 5000` where the strain is `0` and the value of pass
`4999` stays in the variable. -/
def stress2 (n : Nat) : ℚ :=
  if n = 5000 then clampStress (strain2 4999) else clampStress (strain2 n)

/-- Value of `total_forces` after pass `n` of the loop body, `1 ≤ n ≤ 22500`. -/
def netForce (As1 As2 : ℚ) (n : Nat) : ℚ :=
  As1 * f_yd / 1000 + -(34 / 1000 * (n : ℚ)) + As2 * stress2 n / 1000

/-! ## The `while` loop and its unrolling -/

theorem iter_eq_iterate (As1 As2 : ℚ) (u : SolverState) (n : Nat) :
    iter As1 As2 u n = (loopBody As1 As2)^[n] (initState u) := by
  induction n with
  | zero => rfl
  | succ n ih => rw [Function.iterate_succ_apply', ← ih]; rfl

/-- If the loop condition holds in the first `n` unrolled states and fails in the next one,
the loop returns that state as soon as the fuel allows `n` passes. -/
theorem searchLoop_iterate (As1 As2 : ℚ) :
    ∀ (n fuel : Nat) (s : SolverState), n ≤ fuel →
      (∀ k, k < n → tolerance < ((loopBody As1 As2)^[k] s).total_forces) →
      ¬ tolerance < ((loopBody As1 As2)^[n] s).total_forces →
      searchLoop As1 As2 fuel s = some ((loopBody As1 As2)^[n] s) := by
  intro n
  induction n with
  | zero =>
    intro fuel s _ _ hstop
    have hs : ¬ s.total_forces > tolerance := by simpa using hstop
    cases fuel <;> simp [searchLoop, hs]
  | succ n ih =>
    intro fuel s hle hrun hstop
    obtain ⟨fuel, rfl⟩ : ∃ m, fuel = m + 1 := ⟨fuel - 1, by omega⟩
    have h0 : s.total_forces > tolerance := by simpa using hrun 0 (Nat.succ_pos n)
    rw [searchLoop, if_pos h0]
    rw [Function.iterate_succ_apply] at hstop ⊢
    refine ih fuel _ (by omega) ?_ hstop
    intro k hk
    have := hrun (k + 1) (by omega)
    rwa [Function.iterate_succ_apply] at this

/-- A result of the loop is an unrolled state in which the condition fails for the first
time. -/
theorem searchLoop_some_inv (As1 As2 : ℚ) :
    ∀ (fuel : Nat) (s r : SolverState), searchLoop As1 As2 fuel s = some r →
      ∃ n, n ≤ fuel ∧ r = (loopBody As1 As2)^[n] s ∧ ¬ tolerance < r.total_forces ∧
        ∀ k, k < n → tolerance < ((loopBody As1 As2)^[k] s).total_forces := by
  intro fuel
  induction fuel with
  | zero =>
    intro s r hr
    by_cases h0 : s.total_forces > tolerance
    · simp [searchLoop, h0] at hr
    · simp only [searchLoop, if_neg h0, Option.some.injEq] at hr
      subst hr
      exact ⟨0, le_refl _, rfl, h0, fun k hk => absurd hk (Nat.not_lt_zero k)⟩
  | succ fuel ih =>
    intro s r hr
    by_cases h0 : s.total_forces > tolerance
    · rw [searchLoop, if_pos h0] at hr
      obtain ⟨n, hn, hreq, hstop, hrun⟩ := ih _ _ hr
      refine ⟨n + 1, by omega, ?_, hstop, ?_⟩
      · rw [Function.iterate_succ_apply]; exact hreq
      · intro k hk
        cases k with
        | zero => exact h0
        | succ k =>
          rw [Function.iterate_succ_apply]
          exact hrun k (by omega)
    · simp only [searchLoop, if_neg h0, Option.some.injEq] at hr
      subst hr
      exact ⟨0, Nat.zero_le _, rfl, h0, fun k hk => absurd hk (Nat.not_lt_zero k)⟩

/-- Form of `searchLoop_iterate` for a run of `main`. -/
theorem searchLoop_of_first (As1 As2 : ℚ) (u : SolverState) (n fuel : Nat) (hle : n ≤ fuel)
    (hrun : ∀ k, k < n → tolerance < (iter As1 As2 u k).total_forces)
    (hstop : ¬ tolerance < (iter As1 As2 u n).total_forces) :
    searchLoop As1 As2 fuel (initState u) = some (iter As1 As2 u n) := by
  rw [iter_eq_iterate]
  refine searchLoop_iterate As1 As2 n fuel _ hle ?_ ?_
  · intro k hk; rw [← iter_eq_iterate]; exact hrun k hk
  · rw [← iter_eq_iterate]; exact hstop

/-- Form of `searchLoop_some_inv` for a run of `main`. -/
theorem searchLoop_result (As1 As2 : ℚ) (u : SolverState) (fuel : Nat) (r : SolverState)
    (hr : searchLoop As1 As2 fuel (initState u) = some r) :
    ∃ n, n ≤ fuel ∧ r = iter As1 As2 u n ∧ ¬ tolerance < r.total_forces ∧
      ∀ k, k < n → tolerance < (iter As1 As2 u k).total_forces := by
  obtain ⟨n, hn, hreq, hstop, hrun⟩ := searchLoop_some_inv As1 As2 fuel _ r hr
  refine ⟨n, hn, ?_, hstop, ?_⟩
  · rw [iter_eq_iterate]; exact hreq
  · intro k hk; rw [iter_eq_iterate]; exact hrun k hk

/-- The loop cannot return while the condition holds in every unrolled state. -/
theorem searchLoop_never (As1 As2 : ℚ) (u : SolverState)
    (hrun : ∀ k, tolerance < (iter As1 As2 u k).total_forces) :
    ∀ fuel, searchLoop As1 As2 fuel (initState u) = none := by
  intro fuel
  cases hres : searchLoop As1 As2 fuel (initState u) with
  | none => rfl
  | some r =>
    obtain ⟨n, _, hreq, hstop, _⟩ := searchLoop_result As1 As2 u fuel r hres
    rw [hreq] at hstop
    exact absurd (hrun n) hstop

/-! ## Values of the constants -/

theorem f_cd_val : f_cd = 85 / 6 := by norm_num [f_cd, a_cc, f_ck, g_c]

theorem f_yd_val : f_yd = 10000 / 23 := by norm_num [f_yd, f_yk, g_s]

theorem e_yd_val : e_yd = 1 / 460 := by norm_num [e_yd, f_yd_val, E_s]

theorem j_lim_val : j_lim = 45 / 100 := by norm_num [j_lim, f_ck]

/-! ## One pass of the loop body -/

theorem loopBody_x (As1 As2 : ℚ) (s : SolverState) :
    (loopBody As1 As2 s).x_distance = s.x_distance + 1 / 100 := by
  simp only [loopBody]
  split <;> rfl

theorem iter_x (As1 As2 : ℚ) (u : SolverState) (n : Nat) :
    (iter As1 As2 u n).x_distance = (n : ℚ) / 100 := by
  induction n with
  | zero => simp [iter, initState]
  | succ n ih => rw [iter, loopBody_x, ih]; push_cast; ring

/-- Passes `1` to `22500` take the branch `j <= j_lim`. -/
theorem ductile_of_le (n : Nat) (hn : n + 1 ≤ 22500) :
    ((n : ℚ) / 100 + 1 / 100) / d ≤ j_lim := by
  have h1 : ((n : ℚ) + 1) ≤ 22500 := by exact_mod_cast hn
  rw [j_lim_val, d, div_le_iff₀ (by norm_num)]
  linarith

/-- Passes after `22500` take the branch `j > j_lim`. -/
theorem not_ductile_of_gt (n : Nat) (hn : 22500 < n + 1) :
    ¬ ((n : ℚ) / 100 + 1 / 100) / d ≤ j_lim := by
  have h1 : (22500 : ℚ) < (n : ℚ) + 1 := by exact_mod_cast hn
  rw [j_lim_val, d, div_le_iff₀ (by norm_num), not_le]
  linarith

/-- The state written by a pass that takes the branch `j <= j_lim`. -/
theorem iter_succ_ductile (As1 As2 : ℚ) (u : SolverState) (n : Nat) (hn : n + 1 ≤ 22500) :
    iter As1 As2 u (n + 1) =
      { x_distance := ((n + 1 : Nat) : ℚ) / 100
        total_forces :=
          As1 * steelStress (iter As1 As2 u n).tension_s1 (strain1 (n + 1)) / 1000
            + -(34 / 1000 * ((n + 1 : Nat) : ℚ))
            + As2 * steelStress (iter As1 As2 u n).tension_s2 (strain2 (n + 1)) / 1000
        j := ((n + 1 : Nat) : ℚ) / 100 / d
        F_c := -(34 / 1000 * ((n + 1 : Nat) : ℚ))
        F_s1 := As1 * steelStress (iter As1 As2 u n).tension_s1 (strain1 (n + 1)) / 1000
        F_s2 := As2 * steelStress (iter As1 As2 u n).tension_s2 (strain2 (n + 1)) / 1000
        e_s1 := strain1 (n + 1)
        e_s2 := strain2 (n + 1)
        tension_s1 := steelStress (iter As1 As2 u n).tension_s1 (strain1 (n + 1))
        tension_s2 := steelStress (iter As1 As2 u n).tension_s2 (strain2 (n + 1)) } := by
  have hx : (iter As1 As2 u n).x_distance + 1 / 100 = ((n + 1 : Nat) : ℚ) / 100 := by
    rw [iter_x]; push_cast; ring
  have hd := ductile_of_le n hn
  rw [← iter_x As1 As2 u n] at hd
  have hFc : -1 * (8 / 10) * (((n + 1 : Nat) : ℚ) / 100) * b * f_cd / 1000
      = -(34 / 1000 * ((n + 1 : Nat) : ℚ)) := by
    rw [f_cd_val, b]; ring
  rw [iter, loopBody]
  simp only [hx] at hd ⊢
  rw [if_pos hd]
  simp only [hFc, strain1, strain2]

/-- A pass that takes the branch `j > j_lim` changes `x_distance` and `j` only. -/
theorem iter_succ_stale (As1 As2 : ℚ) (u : SolverState) (n : Nat) (hn : 22500 < n + 1) :
    iter As1 As2 u (n + 1) =
      { iter As1 As2 u n with
        x_distance := (iter As1 As2 u n).x_distance + 1 / 100
        j := ((iter As1 As2 u n).x_distance + 1 / 100) / d } := by
  have hd := not_ductile_of_gt n hn
  rw [← iter_x As1 As2 u n] at hd
  rw [iter, loopBody]
  simp only [hd, if_false]

/-! ## The steel law -/

theorem e_yd_pos : 0 < e_yd := by rw [e_yd_val]; norm_num

theorem f_yd_pos : 0 < f_yd := by rw [f_yd_val]; norm_num

theorem steelStress_zero (prev : ℚ) : steelStress prev 0 = prev := by
  simp [steelStress]

/-- At or beyond the yield strain the stress is `f_yd`, whatever was stored before. -/
theorem steelStress_of_yield (prev e : ℚ) (he : e_yd ≤ e) : steelStress prev e = f_yd := by
  have hpos : 0 < e := lt_of_lt_of_le e_yd_pos he
  simp [steelStress, not_lt.mpr hpos.le, hpos, not_lt.mpr he]

/-- For a nonzero strain the statement stores the clamped elastic stress. -/
theorem steelStress_eq_clamp (prev e : ℚ) (he : e ≠ 0) : steelStress prev e = clampStress e := by
  have hy := e_yd_val
  have hf := f_yd_val
  rcases lt_or_gt_of_ne he with hneg | hpos
  · by_cases hel : (-1) * e < e_yd
    · simp only [steelStress, if_pos hneg, if_pos hel, clampStress]
      rw [hy] at hel
      rw [hf, E_s, min_eq_right (by linarith), max_eq_right (by linarith)]
    · simp only [steelStress, if_pos hneg, if_neg hel, clampStress]
      rw [hy] at hel
      rw [hf, E_s, min_eq_right (by linarith), max_eq_left (by linarith)]
      ring
  · have hnn : ¬ e < 0 := not_lt.mpr hpos.le
    by_cases hel : e < e_yd
    · simp only [steelStress, if_neg hnn, if_pos hpos, if_pos hel, clampStress]
      rw [hy] at hel
      rw [hf, E_s, min_eq_right (by linarith), max_eq_right (by linarith)]
    · simp only [steelStress, if_neg hnn, if_pos hpos, if_neg hel, clampStress]
      rw [hy] at hel
      rw [hf, E_s, min_eq_left (by linarith), max_eq_right (by norm_num)]

theorem clampStress_mono {e1 e2 : ℚ} (h12 : e1 ≤ e2) : clampStress e1 ≤ clampStress e2 := by
  unfold clampStress
  have hE : e1 * E_s * 1000 ≤ e2 * E_s * 1000 := by rw [E_s]; linarith
  exact max_le_max (le_refl _) (min_le_min (le_refl _) hE)

/-! ## Strains along the trial depths -/

theorem strain1_eq (n : Nat) (hn : 1 ≤ n) :
    strain1 n = 35 / 10000 * (50000 / (n : ℚ) - 1) := by
  have hq : (n : ℚ) ≠ 0 := by exact_mod_cast (by omega : n ≠ 0)
  rw [strain1, e_cu, d]; field_simp; ring

theorem strain2_eq (n : Nat) (hn : 1 ≤ n) :
    strain2 n = 35 / 10000 * (5000 / (n : ℚ) - 1) := by
  have hq : (n : ℚ) ≠ 0 := by exact_mod_cast (by omega : n ≠ 0)
  rw [strain2, e_cu, d_2]; field_simp; ring

/-- In the ductile range the tension layer is at or beyond the yield strain. -/
theorem strain1_ge_yield (n : Nat) (hn : 1 ≤ n) (hle : n ≤ 22500) : e_yd ≤ strain1 n := by
  have hq : (0 : ℚ) < n := by exact_mod_cast hn
  have h2 : (n : ℚ) ≤ 22500 := by exact_mod_cast hle
  have h3 : (20 / 9 : ℚ) ≤ 50000 / (n : ℚ) := by
    rw [le_div_iff₀ hq]; linarith
  rw [strain1_eq n hn, e_yd_val]
  linarith

theorem strain2_antitone {n m : Nat} (hn : 1 ≤ n) (hnm : n ≤ m) : strain2 m ≤ strain2 n := by
  have hq : (0 : ℚ) < n := by exact_mod_cast hn
  have hqm : (n : ℚ) ≤ m := by exact_mod_cast hnm
  have h3 : (5000 : ℚ) / m ≤ 5000 / n := div_le_div_of_nonneg_left (by norm_num) hq hqm
  rw [strain2_eq n hn, strain2_eq m (le_trans hn hnm)]
  linarith

theorem strain2_pos {n : Nat} (hn : 1 ≤ n) (hlt : n < 5000) : 0 < strain2 n := by
  have hq : (0 : ℚ) < n := by exact_mod_cast hn
  have h2 : (n : ℚ) < 5000 := by exact_mod_cast hlt
  have h3 : (1 : ℚ) < 5000 / (n : ℚ) := by rw [lt_div_iff₀ hq]; linarith
  rw [strain2_eq n hn]
  linarith

theorem strain2_neg {n : Nat} (hlt : 5000 < n) : strain2 n < 0 := by
  have hq : (0 : ℚ) < n := by exact_mod_cast (by omega : 0 < n)
  have h2 : (5000 : ℚ) < n := by exact_mod_cast hlt
  have h3 : 5000 / (n : ℚ) < 1 := by rw [div_lt_iff₀ hq]; linarith
  rw [strain2_eq n (by omega)]
  linarith

theorem strain2_5000 : strain2 5000 = 0 := by norm_num [strain2, d_2]

theorem strain2_ne_zero {n : Nat} (hn : 1 ≤ n) (h5 : n ≠ 5000) : strain2 n ≠ 0 := by
  rcases Nat.lt_or_gt_of_ne h5 with hlt | hgt
  · exact (strain2_pos hn hlt).ne'
  · exact (strain2_neg hgt).ne

/-! ## State of the search after `n` passes -/

theorem iter_tension_s1 (As1 As2 : ℚ) (u : SolverState) (n : Nat) (hn : 1 ≤ n)
    (hle : n ≤ 22500) : (iter As1 As2 u n).tension_s1 = f_yd := by
  obtain ⟨m, rfl⟩ : ∃ m, n = m + 1 := ⟨n - 1, by omega⟩
  rw [iter_succ_ductile As1 As2 u m hle]
  exact steelStress_of_yield _ _ (strain1_ge_yield (m + 1) hn hle)

theorem iter_tension_s2 (As1 As2 : ℚ) (u : SolverState) (n : Nat) (hn : 1 ≤ n)
    (hle : n ≤ 22500) : (iter As1 As2 u n).tension_s2 = stress2 n := by
  have key : ∀ k : Nat, 1 ≤ k → k ≤ 22500 → k ≠ 5000 →
      (iter As1 As2 u k).tension_s2 = clampStress (strain2 k) := by
    intro k hk hkle hk5
    obtain ⟨m, rfl⟩ : ∃ m, k = m + 1 := ⟨k - 1, by omega⟩
    rw [iter_succ_ductile As1 As2 u m hkle]
    exact steelStress_eq_clamp _ _ (strain2_ne_zero hk hk5)
  by_cases h5 : n = 5000
  · subst h5
    rw [iter_succ_ductile As1 As2 u 4999 (by norm_num)]
    simp only [stress2, if_true]
    rw [strain2_5000, steelStress_zero]
    exact key 4999 (by norm_num) (by norm_num) (by norm_num)
  · rw [stress2, if_neg h5]
    exact key n hn hle h5

/-- The fields of the state after pass `n`, for `1 ≤ n ≤ 22500`. -/
theorem iter_ductile (As1 As2 : ℚ) (u : SolverState) (n : Nat) (hn : 1 ≤ n)
    (hle : n ≤ 22500) :
    iter As1 As2 u n =
      { x_distance := (n : ℚ) / 100
        total_forces := netForce As1 As2 n
        j := (n : ℚ) / 100 / d
        F_c := -(34 / 1000 * (n : ℚ))
        F_s1 := As1 * f_yd / 1000
        F_s2 := As2 * stress2 n / 1000
        e_s1 := strain1 n
        e_s2 := strain2 n
        tension_s1 := f_yd
        tension_s2 := stress2 n } := by
  have h1 := iter_tension_s1 As1 As2 u n hn hle
  have h2 := iter_tension_s2 As1 As2 u n hn hle
  obtain ⟨m, rfl⟩ : ∃ m, n = m + 1 := ⟨n - 1, by omega⟩
  rw [iter_succ_ductile As1 As2 u m hle] at h1 h2 ⊢
  simp only at h1 h2
  simp only [h1, h2, netForce]

theorem iter_total (As1 As2 : ℚ) (u : SolverState) (n : Nat) (hn : 1 ≤ n) (hle : n ≤ 22500) :
    (iter As1 As2 u n).total_forces = netForce As1 As2 n := by
  rw [iter_ductile As1 As2 u n hn hle]

/-- After pass `22500` only `x_distance` and `j` change. -/
theorem iter_total_stale (As1 As2 : ℚ) (u : SolverState) (n : Nat) (hn : 22500 ≤ n) :
    (iter As1 As2 u n).total_forces = netForce As1 As2 22500 := by
  induction n with
  | zero => omega
  | succ n ih =>
    by_cases h : n + 1 = 22500
    · rw [h]; exact iter_total As1 As2 u 22500 (by norm_num) (le_refl _)
    · rw [iter_succ_stale As1 As2 u n (by omega)]
      exact ih (by omega)

theorem iter_total_zero (As1 As2 : ℚ) (u : SolverState) :
    (iter As1 As2 u 0).total_forces = 1000 := rfl

/-! ## Monotonicity of the net force -/

theorem stress2_antitone {n m : Nat} (hn : 1 ≤ n) (hnm : n ≤ m) : stress2 m ≤ stress2 n := by
  unfold stress2
  by_cases hm5 : m = 5000
  · by_cases hn5 : n = 5000
    · rw [if_pos hm5, if_pos hn5]
    · rw [if_pos hm5, if_neg hn5]
      exact clampStress_mono (strain2_antitone hn (by omega))
  · by_cases hn5 : n = 5000
    · rw [if_neg hm5, if_pos hn5]
      have h1 : strain2 m < 0 := strain2_neg (by omega)
      have h2 : 0 < strain2 4999 := strain2_pos (by norm_num) (by norm_num)
      exact clampStress_mono (by linarith)
    · rw [if_neg hm5, if_neg hn5]
      exact clampStress_mono (strain2_antitone hn hnm)

/-- With `As2 ≥ 0` the net force strictly decreases along the trial depths. -/
theorem netForce_strictAnti (As1 As2 : ℚ) (h2 : 0 ≤ As2) {n m : Nat} (hn : 1 ≤ n)
    (hnm : n < m) : netForce As1 As2 m < netForce As1 As2 n := by
  have hs := stress2_antitone hn hnm.le
  have hq : (n : ℚ) < m := by exact_mod_cast hnm
  have h3 : As2 * stress2 m ≤ As2 * stress2 n := mul_le_mul_of_nonneg_left hs h2
  unfold netForce
  linarith

theorem netForce_antitone (As1 As2 : ℚ) (h2 : 0 ≤ As2) {n m : Nat} (hn : 1 ≤ n)
    (hnm : n ≤ m) : netForce As1 As2 m ≤ netForce As1 As2 n := by
  rcases Nat.eq_or_lt_of_le hnm with h | h
  · rw [h]
  · exact (netForce_strictAnti As1 As2 h2 hn h).le

/-- The first pass leaves a positive stress in the compression layer. -/
theorem stress2_one : stress2 1 = f_yd := by
  have h1 : e_yd ≤ strain2 1 := by
    rw [e_yd_val]; norm_num [strain2, e_cu, d_2]
  rw [stress2, if_neg (by norm_num), ← steelStress_eq_clamp 0 _ (strain2_ne_zero (le_refl 1) (by norm_num))]
  exact steelStress_of_yield _ _ h1

/-- At the last ductile trial depth the compression layer has yielded in compression. -/
theorem stress2_last : stress2 22500 = -f_yd := by
  rw [stress2, if_neg (by norm_num), clampStress, f_yd_val]
  norm_num [strain2, e_cu, d_2, E_s]

/-- After the first pass `total_forces` is the sum of the three stored forces. -/
theorem iter_total_eq_sum (As1 As2 : ℚ) (u : SolverState) (n : Nat) (hn : 1 ≤ n) :
    (iter As1 As2 u n).total_forces =
      (iter As1 As2 u n).F_s1 + (iter As1 As2 u n).F_c + (iter As1 As2 u n).F_s2 := by
  induction n with
  | zero => omega
  | succ n ih =>
    by_cases h : n + 1 ≤ 22500
    · rw [iter_succ_ductile As1 As2 u n h]
    · rw [iter_succ_stale As1 As2 u n (by omega)]
      exact ih (by omega)

/-- The loop returns after the first pass `n` whose net force is within the tolerance. -/
theorem searchLoop_of_netForce (As1 As2 : ℚ) (h2 : 0 ≤ As2) (u : SolverState) (n fuel : Nat)
    (hn : 1 ≤ n) (hle : n ≤ 22500) (hfuel : n ≤ fuel)
    (hprev : n = 1 ∨ tolerance < netForce As1 As2 (n - 1))
    (hstop : netForce As1 As2 n ≤ tolerance) :
    searchLoop As1 As2 fuel (initState u) = some (iter As1 As2 u n) := by
  refine searchLoop_of_first As1 As2 u n fuel hfuel ?_ ?_
  · intro k hk
    rcases Nat.eq_zero_or_pos k with h0 | hpos
    · subst h0; rw [iter_total_zero, tolerance]; norm_num
    · rw [iter_total As1 As2 u k hpos (by omega)]
      rcases hprev with h1 | hprev
      · omega
      · exact lt_of_lt_of_le hprev (netForce_antitone As1 As2 h2 hpos (by omega))
  · rw [iter_total As1 As2 u n hn hle]
    exact not_lt.mpr hstop

/-! ## C1: termination of the search -/

theorem abs_stress2_le (n : Nat) : |stress2 n| ≤ f_yd := by
  have hf := f_yd_pos
  have hc : ∀ e : ℚ, |clampStress e| ≤ f_yd := by
    intro e
    rw [abs_le]
    constructor
    · exact le_max_left _ _
    · exact max_le (by linarith) (min_le_left _ _)
  unfold stress2
  split
  · exact hc _
  · exact hc _

/-- C1, as amended: for a tension area `As1 > 0` and a compression area `As2 ≥ 0`, both at
most the gross area `b * h` of the section, such that the yield force of the tension layer
exceeds that of the compression layer by at most the concrete force at the last ductile
depth (225 mm), the search loop terminates after at most 22500 passes and the depth it
returns lies strictly between 0 and `d`; the steel forces of the returned state are bounded
by `b * h * f_yd / 1000`. -/
theorem C1_terminates_within_ductile_range (As1 As2 : ℚ) (u : SolverState)
    (h1 : 0 < As1) (h1b : As1 ≤ b * h) (h2 : 0 ≤ As2) (h2b : As2 ≤ b * h)
    (hbal : (As1 - As2) * f_yd / 1000 ≤ 8 / 10 * 225 * b * f_cd / 1000) :
    ∃ n s, 1 ≤ n ∧ n ≤ 22500 ∧
      (∀ fuel, n ≤ fuel → searchLoop As1 As2 fuel (initState u) = some s) ∧
      s.x_distance = (n : ℚ) / 100 ∧ 0 < s.x_distance ∧ s.x_distance < d ∧
      0 < s.F_s1 ∧ s.F_s1 ≤ b * h * f_yd / 1000 ∧ |s.F_s2| ≤ b * h * f_yd / 1000 := by
  have hf := f_yd_pos
  have hlast : netForce As1 As2 22500 ≤ tolerance := by
    rw [netForce, stress2_last, tolerance]
    rw [b, f_cd_val] at hbal
    push_cast
    linarith
  have hex : ∃ k, 1 ≤ k ∧ netForce As1 As2 k ≤ tolerance := ⟨22500, by norm_num, hlast⟩
  have hspec := Nat.find_spec hex
  have hmin : ∀ k, k < Nat.find hex → ¬ (1 ≤ k ∧ netForce As1 As2 k ≤ tolerance) :=
    fun k hk => Nat.find_min hex hk
  have hle : Nat.find hex ≤ 22500 := Nat.find_min' hex ⟨by norm_num, hlast⟩
  refine ⟨Nat.find hex, iter As1 As2 u (Nat.find hex), hspec.1, hle, ?_, iter_x _ _ _ _,
    ?_, ?_, ?_, ?_, ?_⟩
  · intro fuel hfuel
    refine searchLoop_of_first As1 As2 u _ fuel hfuel ?_ ?_
    · intro k hk
      rcases Nat.eq_zero_or_pos k with h0 | hpos
      · subst h0; rw [iter_total_zero, tolerance]; norm_num
      · rw [iter_total As1 As2 u k hpos (by omega)]
        have := hmin k hk
        simp only [not_and, not_le] at this
        exact this hpos
    · rw [iter_total As1 As2 u _ hspec.1 hle]
      exact not_lt.mpr hspec.2
  · rw [iter_x]
    have : (0 : ℚ) < (Nat.find hex : ℚ) := by exact_mod_cast hspec.1
    positivity
  · rw [iter_x, d]
    have : ((Nat.find hex : Nat) : ℚ) ≤ 22500 := by exact_mod_cast hle
    linarith
  · rw [iter_ductile As1 As2 u _ hspec.1 hle]
    simp only
    positivity
  · rw [iter_ductile As1 As2 u _ hspec.1 hle]
    simp only
    have : As1 * f_yd ≤ b * h * f_yd := mul_le_mul_of_nonneg_right h1b hf.le
    linarith
  · rw [iter_ductile As1 As2 u _ hspec.1 hle]
    simp only
    have hs := abs_stress2_le (Nat.find hex)
    have hbh : (0 : ℚ) ≤ b * h := le_trans h2 h2b
    have h3 : |As2 * stress2 (Nat.find hex)| ≤ b * h * f_yd := by
      rw [abs_mul, abs_of_nonneg h2]
      exact mul_le_mul h2b hs (abs_nonneg _) hbh
    rw [abs_div, abs_of_pos (by norm_num : (0 : ℚ) < 1000)]
    exact div_le_div_of_nonneg_right h3 (by norm_num)

/-- Instance of C1 as amended: four 20 mm bars in tension, no compression steel. -/
theorem C1_terminates_within_ductile_range_witness :
    (0 : ℚ) < 4 * (pi * 20 * 20) / 4 ∧ 4 * (pi * 20 * 20) / 4 ≤ b * h ∧
    (0 : ℚ) ≤ 0 ∧ (0 : ℚ) ≤ b * h ∧
    (4 * (pi * 20 * 20) / 4 - 0) * f_yd / 1000 ≤ 8 / 10 * 225 * b * f_cd / 1000 ∧
    ∃ n s, 1 ≤ n ∧ n ≤ 22500 ∧
      (∀ fuel, n ≤ fuel →
        searchLoop (4 * (pi * 20 * 20) / 4) 0 fuel (initState ⟨0, 0, 0, 0, 0, 0, 0, 0, 0, 0⟩)
          = some s) ∧
      s.x_distance = (n : ℚ) / 100 ∧ 0 < s.x_distance ∧ s.x_distance < d ∧
      0 < s.F_s1 ∧ s.F_s1 ≤ b * h * f_yd / 1000 ∧ |s.F_s2| ≤ b * h * f_yd / 1000 :=
  have h1 : (0 : ℚ) < 4 * (pi * 20 * 20) / 4 := by norm_num [pi]
  have h1b : 4 * (pi * 20 * 20) / 4 ≤ b * h := by norm_num [pi, b, h]
  have h2b : (0 : ℚ) ≤ b * h := by norm_num [b, h]
  have hbal : (4 * (pi * 20 * 20) / 4 - 0) * f_yd / 1000 ≤ 8 / 10 * 225 * b * f_cd / 1000 := by
    norm_num [pi, f_yd_val, f_cd_val, b]
  ⟨h1, h1b, le_refl _, h2b, hbal,
   C1_terminates_within_ductile_range (4 * (pi * 20 * 20) / 4) 0 ⟨0, 0, 0, 0, 0, 0, 0, 0, 0, 0⟩
     h1 h1b (le_refl _) h2b hbal⟩

/-- C1 as stated fails: with four 25 mm bars in tension (`As1 > 0`) and no compression
steel (`As2 = 0`) the loop condition holds after every pass, so the search never returns. -/
theorem C1_counterexample :
    0 < 4 * (pi * 25 * 25) / 4 ∧ (0 : ℚ) ≤ 0 ∧
    ∀ (u : SolverState) (fuel : Nat),
      searchLoop (4 * (pi * 25 * 25) / 4) 0 fuel (initState u) = none := by
  refine ⟨by norm_num [pi], le_refl _, ?_⟩
  intro u
  refine searchLoop_never _ _ u ?_
  have hlast : tolerance < netForce (4 * (pi * 25 * 25) / 4) 0 22500 := by
    rw [netForce, stress2_last]
    norm_num [pi, f_yd_val, tolerance]
  intro k
  rcases Nat.eq_zero_or_pos k with h0 | hpos
  · subst h0; rw [iter_total_zero, tolerance]; norm_num
  · by_cases hk : k ≤ 22500
    · rw [iter_total _ _ u k hpos hk]
      exact lt_of_lt_of_le hlast (netForce_antitone _ _ (le_refl _) hpos hk)
    · rw [iter_total_stale _ _ u k (by omega)]
      exact hlast

/-! ## C2: force balance at the returned depth -/

/-- C2, as amended: whenever the search loop returns, the stored net force is the sum of
the three stored forces and is at most the tolerance of 0.1 kN; the loop condition gives
no lower bound. -/
theorem C2_net_force_at_most_tolerance (As1 As2 : ℚ) (u : SolverState) (fuel : Nat)
    (s : SolverState) (hs : searchLoop As1 As2 fuel (initState u) = some s) :
    s.total_forces = s.F_c + s.F_s1 + s.F_s2 ∧ s.F_c + s.F_s1 + s.F_s2 ≤ 1 / 10 := by
  obtain ⟨n, _, hreq, hstop, _⟩ := searchLoop_result As1 As2 u fuel s hs
  have hn : 1 ≤ n := by
    rcases Nat.eq_zero_or_pos n with h0 | hpos
    · subst h0
      rw [hreq, iter_total_zero, tolerance] at hstop
      norm_num at hstop
    · exact hpos
  have hsum : s.total_forces = s.F_c + s.F_s1 + s.F_s2 := by
    rw [hreq, iter_total_eq_sum As1 As2 u n hn]; ring
  refine ⟨hsum, ?_⟩
  rw [← hsum]
  rw [tolerance] at hstop
  exact not_lt.mp hstop

/-- Instance of C2 as amended: a tension area of 0.1 mm² and no compression steel; the
loop returns after the first pass. -/
theorem C2_net_force_at_most_tolerance_witness :
    searchLoop (1 / 10) 0 1 (initState ⟨0, 0, 0, 0, 0, 0, 0, 0, 0, 0⟩)
      = some ⟨1 / 100, 109 / 11500, 1 / 50000, -17 / 500, 1 / 23, 0, 349993 / 2000,
          34993 / 2000, 10000 / 23, 10000 / 23⟩ ∧
    (109 / 11500 : ℚ) = -17 / 500 + 1 / 23 + 0 ∧ (-17 / 500 + 1 / 23 + 0 : ℚ) ≤ 1 / 10 :=
  have hrun : searchLoop (1 / 10) 0 1 (initState ⟨0, 0, 0, 0, 0, 0, 0, 0, 0, 0⟩)
      = some ⟨1 / 100, 109 / 11500, 1 / 50000, -17 / 500, 1 / 23, 0, 349993 / 2000,
          34993 / 2000, 10000 / 23, 10000 / 23⟩ := by
    norm_num [searchLoop, loopBody, initState, steelStress, tolerance, d, d_2, b, j_lim_val,
      f_cd_val, f_yd_val, e_yd_val, e_cu, E_s]
  ⟨hrun, C2_net_force_at_most_tolerance (1 / 10) 0 ⟨0, 0, 0, 0, 0, 0, 0, 0, 0, 0⟩ 1 _ hrun⟩

/-- C2 as stated fails: with one 16 mm bar in tension and eight 32 mm bars in compression
(`As1 > 0`, `As2 ≥ 0`) the loop returns after pass 4914 with a net force below -0.1 kN. -/
theorem C2_counterexample :
    0 < 1 * (pi * 16 * 16) / 4 ∧ 0 ≤ 8 * (pi * 32 * 32) / 4 ∧
    ∀ u : SolverState, ∃ s,
      searchLoop (1 * (pi * 16 * 16) / 4) (8 * (pi * 32 * 32) / 4) 4914 (initState u) = some s ∧
      s.x_distance = 4914 / 100 ∧
      ¬ |s.F_c + s.F_s1 + s.F_s2| ≤ 1 / 10 := by
  have hA2 : (0 : ℚ) ≤ 8 * (pi * 32 * 32) / 4 := by norm_num [pi]
  have e13 : stress2 4913 = 60900 / 4913 := by
    norm_num [stress2, clampStress, strain2, e_cu, d_2, E_s, f_yd_val, max_def, min_def]
  have e14 : stress2 4914 = 4300 / 351 := by
    norm_num [stress2, clampStress, strain2, e_cu, d_2, E_s, f_yd_val, max_def, min_def]
  refine ⟨by norm_num [pi], hA2, ?_⟩
  intro u
  refine ⟨iter (1 * (pi * 16 * 16) / 4) (8 * (pi * 32 * 32) / 4) u 4914, ?_, ?_, ?_⟩
  · refine searchLoop_of_netForce _ _ hA2 u 4914 4914 (by norm_num) (by norm_num) (le_refl _)
      (Or.inr ?_) ?_
    · rw [netForce, e13]; norm_num [pi, f_yd_val, tolerance]
    · rw [netForce, e14]; norm_num [pi, f_yd_val, tolerance]
  · rw [iter_x]; norm_num
  · rw [iter_ductile _ _ u 4914 (by norm_num) (by norm_num)]
    simp only [e14]
    rw [not_le, lt_abs]
    right
    norm_num [pi, f_yd_val]

/-- While the loop condition holds in every unrolled state up to `fuel`, the loop is still
running. -/
theorem searchLoop_running (As1 As2 : ℚ) (u : SolverState) (fuel : Nat)
    (hrun : ∀ k, k ≤ fuel → tolerance < (iter As1 As2 u k).total_forces) :
    searchLoop As1 As2 fuel (initState u) = none := by
  cases hres : searchLoop As1 As2 fuel (initState u) with
  | none => rfl
  | some r =>
    obtain ⟨n, hn, hreq, hstop, _⟩ := searchLoop_result As1 As2 u fuel r hres
    rw [hreq] at hstop
    exact absurd (hrun n hn) hstop

/-! ## C3: the steel law inside the loop -/

/-- C4: for every final state the design moment is
`(|F_c| * (d - 0.4 * x) + |F_s2| * (d - d_2)) / 1000` with `d = 500` and `d_2 = 50`,
whatever the signs of the two forces. -/
theorem C4_design_moment_formula (s : SolverState) :
    designMoment s
      = (|s.F_c| * (d - 4 / 10 * s.x_distance) + |s.F_s2| * (d - d_2)) / 1000 ∧
    designMoment s = (|s.F_c| * (500 - 4 / 10 * s.x_distance) + |s.F_s2| * (500 - 50)) / 1000 := by
  have key : designMoment s
      = (|s.F_c| * (d - 4 / 10 * s.x_distance) + |s.F_s2| * (d - d_2)) / 1000 := by
    simp only [designMoment]
    by_cases hc : s.F_c < 0
    · by_cases h2 : s.F_s2 < 0
      · rw [if_pos hc, if_pos h2, abs_of_neg hc, abs_of_neg h2]; ring
      · rw [if_pos hc, if_neg h2, abs_of_neg hc, abs_of_nonneg (not_lt.mp h2)]; ring
    · by_cases h2 : s.F_s2 < 0
      · rw [if_neg hc, if_pos h2, abs_of_nonneg (not_lt.mp hc), abs_of_neg h2]; ring
      · rw [if_neg hc, if_neg h2, abs_of_nonneg (not_lt.mp hc), abs_of_nonneg (not_lt.mp h2)]
        ring
  refine ⟨key, ?_⟩
  rw [key, d, d_2]

/-! ## C5: the tension input loop -/

/-- The terminating count `0`, whatever the accumulated area and the old `quantity`. -/
theorem tensionLoop_zero (acc : ℚ) (q : Int) (unread : List Int) :
    tensionLoop acc q (0 :: unread)
      = if acc = 0 then TensionOutcome.exit1 unread else TensionOutcome.proceed acc unread := by
  cases unread <;> simp [tensionLoop, INT_MIN, INT_MAX]

/-- One bar group whose two tokens fit an `int` and whose count is not `0`. -/
theorem tensionLoop_group (acc : ℚ) (q t bd : Int) (rest : List Int) (ht0 : t ≠ 0)
    (ht : INT_MIN ≤ t ∧ t ≤ INT_MAX) (hbd : INT_MIN ≤ bd ∧ bd ≤ INT_MAX) :
    tensionLoop acc q (t :: bd :: rest)
      = tensionLoop (acc + t * (pi * bd * bd) / 4) t rest := by
  have h1 : ¬ (t < INT_MIN ∨ INT_MAX < t) := by
    rw [not_or, not_lt, not_lt]; exact ht
  have h2 : ¬ (bd < INT_MIN ∨ INT_MAX < bd) := by
    rw [not_or, not_lt, not_lt]; exact hbd
  rw [tensionLoop]
  simp only [h1, h2, ht0, if_false]

theorem tensionLoop_groups (rest : List Int) :
    ∀ (groups : List (Int × Int)) (acc : ℚ) (q : Int),
      (∀ g ∈ groups, 0 < g.1 ∧ g.1 ≤ INT_MAX ∧ INT_MIN ≤ g.2 ∧ g.2 ≤ INT_MAX) →
      tensionLoop acc q (groupTokens groups ++ 0 :: rest)
        = if accumulate acc groups = 0 then TensionOutcome.exit1 rest
          else TensionOutcome.proceed (accumulate acc groups) rest := by
  intro groups
  induction groups with
  | nil =>
    intro acc q _
    simp only [groupTokens, List.nil_append, accumulate]
    exact tensionLoop_zero acc q rest
  | cons g gs ih =>
    intro acc q hq
    obtain ⟨hpos, hmax, hdmin, hdmax⟩ := hq g (List.mem_cons_self _ _)
    have hgs : ∀ g2 ∈ gs, 0 < g2.1 ∧ g2.1 ≤ INT_MAX ∧ INT_MIN ≤ g2.2 ∧ g2.2 ≤ INT_MAX :=
      fun g2 h2 => hq g2 (List.mem_cons_of_mem _ h2)
    have hmin : INT_MIN ≤ g.1 := by
      have : INT_MIN ≤ 0 := by decide
      omega
    simp only [groupTokens, List.cons_append, accumulate]
    rw [tensionLoop_group acc q g.1 g.2 _ (by omega) ⟨hmin, hmax⟩ ⟨hdmin, hdmax⟩]
    exact ih _ _ hgs

/-- With positive counts the accumulated area is zero exactly when every diameter is. -/
theorem accumulate_eq_zero_iff :
    ∀ (groups : List (Int × Int)) (acc : ℚ), 0 ≤ acc → (∀ g ∈ groups, 0 < g.1) →
      (accumulate acc groups = 0 ↔ acc = 0 ∧ ∀ g ∈ groups, g.2 = 0) := by
  intro groups
  induction groups with
  | nil =>
    intro acc _ _
    simp [accumulate]
  | cons g gs ih =>
    intro acc hacc hq
    have hpos : (0 : ℚ) < (g.1 : ℚ) := by exact_mod_cast hq g (List.mem_cons_self _ _)
    have hgs : ∀ g2 ∈ gs, 0 < g2.1 := fun g2 h2 => hq g2 (List.mem_cons_of_mem _ h2)
    have hpi : (0 : ℚ) < pi := by norm_num [pi]
    have hsq : (0 : ℚ) ≤ (g.2 : ℚ) * (g.2 : ℚ) := mul_self_nonneg _
    have hterm : (0 : ℚ) ≤ (g.1 : ℚ) * (pi * (g.2 : ℚ) * (g.2 : ℚ)) / 4 := by
      have : (0 : ℚ) ≤ pi * (g.2 : ℚ) * (g.2 : ℚ) := by
        rw [mul_assoc]; exact mul_nonneg hpi.le hsq
      positivity
    have hzero : (g.1 : ℚ) * (pi * (g.2 : ℚ) * (g.2 : ℚ)) / 4 = 0 ↔ g.2 = 0 := by
      constructor
      · intro h0
        have h4 : (g.1 : ℚ) * (pi * (g.2 : ℚ) * (g.2 : ℚ)) = 0 := by linarith
        rcases mul_eq_zero.mp h4 with h | h
        · exact absurd h hpos.ne'
        · rw [mul_assoc] at h
          rcases mul_eq_zero.mp h with h | h
          · exact absurd h hpi.ne'
          · have : (g.2 : ℚ) = 0 := mul_self_eq_zero.mp h
            exact_mod_cast this
      · intro h0
        rw [h0]; simp
    rw [accumulate, ih _ (by linarith) hgs]
    constructor
    · rintro ⟨hsum, hall⟩
      have hacc0 : acc = 0 := by linarith
      have ht0 : (g.1 : ℚ) * (pi * (g.2 : ℚ) * (g.2 : ℚ)) / 4 = 0 := by linarith
      refine ⟨hacc0, ?_⟩
      intro g2 hg2
      rcases List.mem_cons.mp hg2 with h | h
      · rw [h]; exact hzero.mp ht0
      · exact hall g2 h
    · rintro ⟨hacc0, hall⟩
      refine ⟨?_, fun g2 h2 => hall g2 (List.mem_cons_of_mem _ h2)⟩
      rw [hacc0, hzero.mpr (hall g (List.mem_cons_self _ _))]
      norm_num

/-- The binary64 tension loop over a sequence of bar groups and the terminating `0`. -/
theorem tensionLoop64_groups (rest : List Int) :
    ∀ (groups : List (Int × Int)) (acc : F64) (q : Int),
      (∀ g ∈ groups, g.1 ≠ 0 ∧ INT_MIN ≤ g.1 ∧ g.1 ≤ INT_MAX ∧ INT_MIN ≤ g.2 ∧ g.2 ≤ INT_MAX) →
      tensionLoop64 acc q (groupTokens groups ++ 0 :: rest)
        = if (accumulate64 acc groups).m = 0 then TensionOutcome64.exit1 rest
          else TensionOutcome64.proceed (accumulate64 acc groups) rest := by
  intro groups
  induction groups with
  | nil =>
    intro acc q _
    simp only [groupTokens, List.nil_append, accumulate64]
    cases rest <;> simp [tensionLoop64, INT_MIN, INT_MAX]
  | cons g gs ih =>
    intro acc q hq
    obtain ⟨hne, hmin, hmax, hdmin, hdmax⟩ := hq g (List.mem_cons_self _ _)
    have hgs : ∀ g2 ∈ gs,
        g2.1 ≠ 0 ∧ INT_MIN ≤ g2.1 ∧ g2.1 ≤ INT_MAX ∧ INT_MIN ≤ g2.2 ∧ g2.2 ≤ INT_MAX :=
      fun g2 h2 => hq g2 (List.mem_cons_of_mem _ h2)
    have h1 : ¬ (g.1 < INT_MIN ∨ INT_MAX < g.1) := by
      rw [not_or, not_lt, not_lt]; exact ⟨hmin, hmax⟩
    have h2 : ¬ (g.2 < INT_MIN ∨ INT_MAX < g.2) := by
      rw [not_or, not_lt, not_lt]; exact ⟨hdmin, hdmax⟩
    simp only [groupTokens, List.cons_append, accumulate64]
    rw [tensionLoop64]
    simp only [h1, h2, hne, if_false]
    exact ih _ _ hgs

/-- C5: for every sequence of bar groups (counts other than `0`, tokens that fit an `int`)
followed by the terminating `0`, the tension loop, with the area accumulated in binary64 as
the program does, takes `exit(1)` if the accumulated area is zero and otherwise leaves with
that area unchanged, in both cases with the tokens after the `0` unread. The same holds in
exact arithmetic for whatever area has been accumulated when the `0` is read. When the
counts are positive the area is zero exactly when all diameters are zero (in particular
when the `0` is the first entry); then the run ends with status 1 for every fuel, so
without reading compression input and without a pass of the search loop; otherwise the run
continues with the part of `main` after the tension loop, which starts the compression loop
on the tokens after the `0`, with that area as `As1`. -/
theorem C5_tension_loop_exit_or_proceed (groups : List (Int × Int)) (rest : List Int)
    (hq : ∀ g ∈ groups,
      g.1 ≠ 0 ∧ INT_MIN ≤ g.1 ∧ g.1 ≤ INT_MAX ∧ INT_MIN ≤ g.2 ∧ g.2 ≤ INT_MAX) :
    (tensionLoop64 ⟨0, 0⟩ 0 (groupTokens groups ++ 0 :: rest)
      = if (accumulate64 ⟨0, 0⟩ groups).m = 0 then TensionOutcome64.exit1 rest
        else TensionOutcome64.proceed (accumulate64 ⟨0, 0⟩ groups) rest) ∧
    (∀ (acc : ℚ) (q : Int) (unread : List Int),
      tensionLoop acc q (0 :: unread)
        = if acc = 0 then TensionOutcome.exit1 unread
          else TensionOutcome.proceed acc unread) ∧
    ((∀ g ∈ groups, 0 < g.1) →
      (accumulate 0 groups = 0 ↔ ∀ g ∈ groups, g.2 = 0) ∧
      (accumulate 0 groups = 0 →
        tensionLoop 0 0 (groupTokens groups ++ 0 :: rest) = TensionOutcome.exit1 rest ∧
        ∀ (u : SolverState) (fuel : Nat),
          mainProgram u (groupTokens groups ++ 0 :: rest) fuel = RunResult.exited 1) ∧
      (accumulate 0 groups ≠ 0 →
        tensionLoop 0 0 (groupTokens groups ++ 0 :: rest)
          = TensionOutcome.proceed (accumulate 0 groups) rest ∧
        ∀ (u : SolverState) (fuel : Nat),
          mainProgram u (groupTokens groups ++ 0 :: rest) fuel
            = afterTension u (accumulate 0 groups) rest fuel ∧
          afterTension u (accumulate 0 groups) rest fuel
            = (match compressionLoop 0 0 rest with
              | CompressionOutcome.neverLeaves => RunResult.inputLoopNeverLeft
              | CompressionOutcome.proceed As2 _ =>
                match searchLoop (accumulate 0 groups) As2 fuel (initState u) with
                | none => RunResult.outOfFuel
                | some s =>
                  RunResult.finished
                    { As1 := accumulate 0 groups, As2 := As2,
                      tensionMsg := yieldReport s.e_s1,
                      compressionMsg := yieldReport s.e_s2,
                      design_moment_Mrd := designMoment s, x_distance := s.x_distance }))) := by
  refine ⟨tensionLoop64_groups rest groups ⟨0, 0⟩ 0 hq, tensionLoop_zero, ?_⟩
  intro hpos
  have hq2 : ∀ g ∈ groups, 0 < g.1 ∧ g.1 ≤ INT_MAX ∧ INT_MIN ≤ g.2 ∧ g.2 ≤ INT_MAX :=
    fun g hg => ⟨hpos g hg, (hq g hg).2.2.1, (hq g hg).2.2.2.1, (hq g hg).2.2.2.2⟩
  have hloop := tensionLoop_groups rest groups 0 0 hq2
  have hiff := accumulate_eq_zero_iff groups 0 (le_refl _) hpos
  refine ⟨?_, ?_, ?_⟩
  · rw [hiff]
    exact ⟨fun hh => hh.2, fun hh => ⟨rfl, hh⟩⟩
  · intro hz
    rw [if_pos hz] at hloop
    refine ⟨hloop, ?_⟩
    intro u fuel
    simp only [mainProgram, hloop]
  · intro hnz
    rw [if_neg hnz] at hloop
    refine ⟨hloop, ?_⟩
    intro u fuel
    refine ⟨?_, rfl⟩
    simp only [mainProgram, hloop]

/-- Instance of C5: four 20 mm bars, the terminating `0`, then the `0` that ends the
compression loop. -/
theorem C5_tension_loop_exit_or_proceed_witness :
    (∀ g ∈ [((4 : Int), (20 : Int))],
      g.1 ≠ 0 ∧ INT_MIN ≤ g.1 ∧ g.1 ≤ INT_MAX ∧ INT_MIN ≤ g.2 ∧ g.2 ≤ INT_MAX) ∧
    (∀ g ∈ [((4 : Int), (20 : Int))], 0 < g.1) ∧
    accumulate 0 [(4, 20)] ≠ 0 ∧
    tensionLoop 0 0 (groupTokens [(4, 20)] ++ 0 :: [0])
      = TensionOutcome.proceed (accumulate 0 [(4, 20)]) [0] :=
  have hq : ∀ g ∈ [((4 : Int), (20 : Int))],
      g.1 ≠ 0 ∧ INT_MIN ≤ g.1 ∧ g.1 ≤ INT_MAX ∧ INT_MIN ≤ g.2 ∧ g.2 ≤ INT_MAX := by decide
  have hpos : ∀ g ∈ [((4 : Int), (20 : Int))], 0 < g.1 := by decide
  have hnz : accumulate 0 [(4, 20)] ≠ 0 := by norm_num [accumulate, pi]
  ⟨hq, hpos, hnz, (((C5_tension_loop_exit_or_proceed [(4, 20)] [0] hq).2.2 hpos).2.2 hnz).1⟩

/-- The state returned by the loop is determined by the first pass that fails the loop
condition, whatever the fuel. -/
theorem searchLoop_result_eq (As1 As2 : ℚ) (u : SolverState) (n : Nat)
    (hrun : ∀ k, k < n → tolerance < (iter As1 As2 u k).total_forces)
    (hstop : ¬ tolerance < (iter As1 As2 u n).total_forces)
    (fuel : Nat) (s : SolverState) (hs : searchLoop As1 As2 fuel (initState u) = some s) :
    s = iter As1 As2 u n := by
  obtain ⟨m, _, hreq, hstopm, hrunm⟩ := searchLoop_result As1 As2 u fuel s hs
  rcases Nat.lt_trichotomy m n with hlt | heq | hgt
  · rw [hreq] at hstopm
    exact absurd (hrun m hlt) hstopm
  · rw [hreq, heq]
  · exact absurd (hrunm n hgt) hstop

/-- First pass within the tolerance, stated on the closed form of the net force. -/
theorem first_of_netForce (As1 As2 : ℚ) (h2 : 0 ≤ As2) (u : SolverState) (n : Nat)
    (hn : 2 ≤ n) (hle : n ≤ 22500) (hprev : tolerance < netForce As1 As2 (n - 1))
    (hstop : netForce As1 As2 n ≤ tolerance) :
    (∀ k, k < n → tolerance < (iter As1 As2 u k).total_forces) ∧
      ¬ tolerance < (iter As1 As2 u n).total_forces := by
  constructor
  · intro k hk
    rcases Nat.eq_zero_or_pos k with h0 | hpos
    · subst h0; rw [iter_total_zero, tolerance]; norm_num
    · rw [iter_total As1 As2 u k hpos (by omega)]
      exact lt_of_lt_of_le hprev (netForce_antitone As1 As2 h2 hpos (by omega))
  · rw [iter_total As1 As2 u n (by omega) hle]
    exact not_lt.mpr hstop

/-! ## Scenario A: four 20 mm bars in tension, no compression steel -/

theorem scenarioA_first (u : SolverState) :
    (∀ k, k < 16067 → tolerance < (iter (4 * (pi * 20 * 20) / 4) 0 u k).total_forces) ∧
      ¬ tolerance < (iter (4 * (pi * 20 * 20) / 4) 0 u 16067).total_forces := by
  refine first_of_netForce _ _ (le_refl _) u 16067 (by norm_num) (by norm_num) ?_ ?_
  · norm_num [netForce, pi, f_yd_val, tolerance]
  · norm_num [netForce, pi, f_yd_val, tolerance]

theorem scenarioA_run (u : SolverState) :
    searchLoop (4 * (pi * 20 * 20) / 4) 0 16067 (initState u)
      = some (iter (4 * (pi * 20 * 20) / 4) 0 u 16067) :=
  searchLoop_of_first _ _ u 16067 16067 (le_refl _) (scenarioA_first u).1 (scenarioA_first u).2

/-! ## Scenario B: four 20 mm bars in each layer -/

theorem scenarioB_first (u : SolverState) :
    (∀ k, k < 7483 →
        tolerance < (iter (4 * (pi * 20 * 20) / 4) (4 * (pi * 20 * 20) / 4) u k).total_forces) ∧
      ¬ tolerance < (iter (4 * (pi * 20 * 20) / 4) (4 * (pi * 20 * 20) / 4) u 7483).total_forces := by
  have hA : (0 : ℚ) ≤ 4 * (pi * 20 * 20) / 4 := by norm_num [pi]
  have e82 : stress2 7482 = 700 * (5000 - 7482) / 7482 := by
    norm_num [stress2, clampStress, strain2, e_cu, d_2, E_s, f_yd_val, max_def, min_def]
  have e83 : stress2 7483 = 700 * (5000 - 7483) / 7483 := by
    norm_num [stress2, clampStress, strain2, e_cu, d_2, E_s, f_yd_val, max_def, min_def]
  refine first_of_netForce _ _ hA u 7483 (by norm_num) (by norm_num) ?_ ?_
  · rw [netForce, e82]; norm_num [pi, f_yd_val, tolerance]
  · rw [netForce, e83]; norm_num [pi, f_yd_val, tolerance]

theorem scenarioB_run (u : SolverState) :
    searchLoop (4 * (pi * 20 * 20) / 4) (4 * (pi * 20 * 20) / 4) 7483 (initState u)
      = some (iter (4 * (pi * 20 * 20) / 4) (4 * (pi * 20 * 20) / 4) u 7483) :=
  searchLoop_of_first _ _ u 7483 7483 (le_refl _) (scenarioB_first u).1 (scenarioB_first u).2

/-! ## C6: neutral-axis depth of Scenario A -/

/-- C6, as amended: in Scenario A the search returns after pass 16067 with the
neutral-axis depth 160.67 mm, which lies between 160 mm and 161 mm. -/
theorem C6_scenarioA_depth (u : SolverState) :
    ∃ s, searchLoop (4 * (pi * 20 * 20) / 4) 0 16067 (initState u) = some s ∧
      s.x_distance = 16067 / 100 ∧ 160 ≤ s.x_distance ∧ s.x_distance ≤ 161 := by
  refine ⟨_, scenarioA_run u, ?_⟩
  rw [iter_x]
  norm_num

/-- C6 as stated fails: in Scenario A no amount of fuel (and no initial content of the
uninitialised locals) makes the search return a depth between 90 mm and 110 mm. -/
theorem C6_counterexample :
    ¬ ∃ (u : SolverState) (fuel : Nat) (s : SolverState),
      searchLoop (4 * (pi * 20 * 20) / 4) 0 fuel (initState u) = some s ∧
        90 ≤ s.x_distance ∧ s.x_distance ≤ 110 := by
  rintro ⟨u, fuel, s, hs, _, h110⟩
  have hs2 := searchLoop_result_eq _ _ u 16067 (scenarioA_first u).1 (scenarioA_first u).2
    fuel s hs
  rw [hs2, iter_x] at h110
  norm_num at h110

/-! ## C7: Scenario A is ductile, the tension steel yields, the moment is positive -/

/-- C7: in Scenario A the search returns a state with `x / d ≤ 0.45` (the stored `j` is
within `j_lim`), the tension strain is at least `e_yd`, the report prints the yield message
for the tension layer, and the design moment is positive and equals
`|F_c| * (d - 0.4 * x) / 1000`. -/
theorem C7_scenarioA_ductile_yield_moment (u : SolverState) :
    ∃ s, searchLoop (4 * (pi * 20 * 20) / 4) 0 16067 (initState u) = some s ∧
      s.x_distance / d ≤ 45 / 100 ∧ s.j = s.x_distance / d ∧ s.j ≤ j_lim ∧
      e_yd ≤ s.e_s1 ∧ yieldReport s.e_s1 = some YieldMsg.yield ∧
      0 < designMoment s ∧
      designMoment s = |s.F_c| * (d - 4 / 10 * s.x_distance) / 1000 := by
  refine ⟨_, scenarioA_run u, ?_⟩
  have hy : e_yd ≤ strain1 16067 := strain1_ge_yield 16067 (by norm_num) (by norm_num)
  have hpos : 0 < strain1 16067 := lt_of_lt_of_le e_yd_pos hy
  rw [iter_ductile _ _ u 16067 (by norm_num) (by norm_num)]
  refine ⟨by norm_num [d], by norm_num, by norm_num [d, j_lim_val], hy, ?_, ?_, ?_⟩
  · simp only [yieldReport, if_pos hpos, if_neg (not_lt.mpr hy)]
  · norm_num [designMoment, d, d_2]
  · norm_num [designMoment, d, d_2, abs_of_neg]

/-! ## C8: compression steel reduces the neutral-axis depth -/

/-- C8: in Scenario B the search returns (after pass 7483, depth 74.83 mm), and whatever
the fuel, the depth returned for Scenario B is strictly smaller than the depth returned for
Scenario A (160.67 mm). -/
theorem C8_scenarioB_depth_below_scenarioA (u : SolverState) :
    (∃ sB, searchLoop (4 * (pi * 20 * 20) / 4) (4 * (pi * 20 * 20) / 4) 7483 (initState u)
        = some sB ∧ sB.x_distance = 7483 / 100) ∧
    (∃ sA, searchLoop (4 * (pi * 20 * 20) / 4) 0 16067 (initState u) = some sA ∧
        sA.x_distance = 16067 / 100) ∧
    ∀ (fuelA fuelB : Nat) (sA sB : SolverState),
      searchLoop (4 * (pi * 20 * 20) / 4) 0 fuelA (initState u) = some sA →
      searchLoop (4 * (pi * 20 * 20) / 4) (4 * (pi * 20 * 20) / 4) fuelB (initState u)
        = some sB →
      sB.x_distance < sA.x_distance := by
  refine ⟨⟨_, scenarioB_run u, ?_⟩, ⟨_, scenarioA_run u, ?_⟩, ?_⟩
  · rw [iter_x]; norm_num
  · rw [iter_x]; norm_num
  · intro fuelA fuelB sA sB hA hB
    rw [searchLoop_result_eq _ _ u 16067 (scenarioA_first u).1 (scenarioA_first u).2 fuelA sA hA,
      searchLoop_result_eq _ _ u 7483 (scenarioB_first u).1 (scenarioB_first u).2 fuelB sB hB,
      iter_x, iter_x]
    norm_num

/-! ## C9: the yield report -/

/-- A run whose three loops succeed prints the report of the returned state. -/
theorem mainProgram_finished (u : SolverState) (input : List Int) (fuel : Nat) (As1 : ℚ)
    (rest : List Int) (As2 : ℚ) (rest2 : List Int) (s : SolverState)
    (ht : tensionLoop 0 0 input = TensionOutcome.proceed As1 rest)
    (hc : compressionLoop 0 0 rest = CompressionOutcome.proceed As2 rest2)
    (hs : searchLoop As1 As2 fuel (initState u) = some s) :
    ∃ r, mainProgram u input fuel = RunResult.finished r ∧
      r.As1 = As1 ∧ r.As2 = As2 ∧ r.tensionMsg = yieldReport s.e_s1 ∧
      r.compressionMsg = yieldReport s.e_s2 ∧ r.design_moment_Mrd = designMoment s ∧
      r.x_distance = s.x_distance := by
  refine ⟨{ As1 := As1, As2 := As2, tensionMsg := yieldReport s.e_s1,
            compressionMsg := yieldReport s.e_s2, design_moment_Mrd := designMoment s,
            x_distance := s.x_distance }, ?_, rfl, rfl, rfl, rfl, rfl, rfl⟩
  simp only [mainProgram, afterTension, ht, hc, hs]

/-- A finished run printed the report of a state returned by the search loop. -/
theorem mainProgram_finished_inv (u : SolverState) (input : List Int) (fuel : Nat)
    (r : Report) (hr : mainProgram u input fuel = RunResult.finished r) :
    ∃ As1 As2 s, searchLoop As1 As2 fuel (initState u) = some s ∧
      r.As1 = As1 ∧ r.As2 = As2 ∧ r.tensionMsg = yieldReport s.e_s1 ∧
      r.compressionMsg = yieldReport s.e_s2 ∧ r.design_moment_Mrd = designMoment s ∧
      r.x_distance = s.x_distance := by
  unfold mainProgram at hr
  cases ht : tensionLoop 0 0 input with
  | exit1 rest => rw [ht] at hr; simp at hr
  | neverLeaves => rw [ht] at hr; simp at hr
  | proceed As1 rest =>
    rw [ht] at hr
    simp only [afterTension] at hr
    cases hc : compressionLoop 0 0 rest with
    | neverLeaves => rw [hc] at hr; simp at hr
    | proceed As2 rest2 =>
      rw [hc] at hr
      simp only at hr
      cases hsl : searchLoop As1 As2 fuel (initState u) with
      | none => rw [hsl] at hr; simp at hr
      | some s =>
        rw [hsl] at hr
        simp only [RunResult.finished.injEq] at hr
        refine ⟨As1, As2, s, hsl, ?_⟩
        rw [← hr]
        exact ⟨rfl, rfl, rfl, rfl, rfl, rfl⟩

theorem quotient_of_scaled (e a c x : ℚ) (he : e ≠ 0) (hx : x ≠ 0) :
    e * a / x / (e * c / x) = a / c := by
  by_cases hc : c = 0
  · simp [hc]
  · field_simp
    ring

/-- C10: after every pass `n` that computes strains (`1 ≤ n ≤ 22500`, trial depth
`x = n / 100`) the stored strains are `e_s1 = e_cu * (d - x) / x` and
`e_s2 = e_cu * (d_2 - x) / x`, and they satisfy `e_s1 / e_s2 = (d - x) / (d_2 - x)`.
The identity also holds in the division-free form `e_s1 * (d_2 - x) = e_s2 * (d - x)`;
the two denominators are nonzero except at `n = 5000`, where `x = d_2` and both vanish. -/
theorem C10_strain_compatibility (As1 As2 : ℚ) (u : SolverState) (n : Nat) (hn : 1 ≤ n)
    (hle : n ≤ 22500) :
    (iter As1 As2 u n).x_distance = (n : ℚ) / 100 ∧
    (iter As1 As2 u n).e_s1
      = e_cu * (d - (iter As1 As2 u n).x_distance) / (iter As1 As2 u n).x_distance ∧
    (iter As1 As2 u n).e_s2
      = e_cu * (d_2 - (iter As1 As2 u n).x_distance) / (iter As1 As2 u n).x_distance ∧
    (iter As1 As2 u n).e_s1 / (iter As1 As2 u n).e_s2
      = (d - (iter As1 As2 u n).x_distance) / (d_2 - (iter As1 As2 u n).x_distance) ∧
    (iter As1 As2 u n).e_s1 * (d_2 - (iter As1 As2 u n).x_distance)
      = (iter As1 As2 u n).e_s2 * (d - (iter As1 As2 u n).x_distance) ∧
    (n ≠ 5000 →
      (iter As1 As2 u n).e_s2 ≠ 0 ∧ d_2 - (iter As1 As2 u n).x_distance ≠ 0) := by
  have hq : (n : ℚ) / 100 ≠ 0 := by
    have : (0 : ℚ) < n := by exact_mod_cast hn
    positivity
  have hcu : e_cu ≠ 0 := by norm_num [e_cu]
  rw [iter_ductile As1 As2 u n hn hle]
  simp only [strain1, strain2]
  refine ⟨trivial, trivial, trivial, ?_, ?_, ?_⟩
  · exact quotient_of_scaled e_cu _ _ _ hcu hq
  · field_simp
    ring
  · intro h5
    have hne := strain2_ne_zero hn h5
    rw [strain2] at hne
    refine ⟨hne, ?_⟩
    intro h0
    apply hne
    rw [h0, mul_zero, zero_div]

/-- Instance of C10: the first pass (trial depth 0.01 mm) with unit areas in both layers. -/
theorem C10_strain_compatibility_witness :
    (1 : Nat) ≤ 1 ∧ (1 : Nat) ≤ 22500 ∧
    (iter 1 1 ⟨0, 0, 0, 0, 0, 0, 0, 0, 0, 0⟩ 1).e_s1
        / (iter 1 1 ⟨0, 0, 0, 0, 0, 0, 0, 0, 0, 0⟩ 1).e_s2
      = (d - (iter 1 1 ⟨0, 0, 0, 0, 0, 0, 0, 0, 0, 0⟩ 1).x_distance)
        / (d_2 - (iter 1 1 ⟨0, 0, 0, 0, 0, 0, 0, 0, 0, 0⟩ 1).x_distance) :=
  ⟨le_refl 1, by decide,
    (C10_strain_compatibility 1 1 ⟨0, 0, 0, 0, 0, 0, 0, 0, 0, 0⟩ 1 (le_refl 1)
      (by decide)).2.2.2.1⟩

/-! ## Shape of every returned state -/

/-- A state returned by the loop is the state of a pass in the ductile range, the first
one whose net force is within the tolerance. -/
theorem searchLoop_result_ductile (As1 As2 : ℚ) (u : SolverState) (fuel : Nat)
    (s : SolverState) (hs : searchLoop As1 As2 fuel (initState u) = some s) :
    ∃ n, 1 ≤ n ∧ n ≤ 22500 ∧ n ≤ fuel ∧ s = iter As1 As2 u n ∧
      netForce As1 As2 n ≤ tolerance ∧
      ∀ k, 1 ≤ k → k < n → tolerance < netForce As1 As2 k := by
  obtain ⟨n, hfuel, hreq, hstop, hrun⟩ := searchLoop_result As1 As2 u fuel s hs
  rw [hreq] at hstop
  have hn : 1 ≤ n := by
    rcases Nat.eq_zero_or_pos n with h0 | hpos
    · subst h0
      rw [iter_total_zero, tolerance] at hstop
      norm_num at hstop
    · exact hpos
  have hle : n ≤ 22500 := by
    by_contra hgt
    have h1 := hrun 22500 (by omega)
    rw [iter_total As1 As2 u 22500 (by norm_num) (le_refl _)] at h1
    rw [iter_total_stale As1 As2 u n (by omega)] at hstop
    exact hstop h1
  refine ⟨n, hn, hle, hfuel, hreq, ?_, ?_⟩
  · rw [iter_total As1 As2 u n hn hle] at hstop
    exact not_lt.mp hstop
  · intro k hk hkn
    have h1 := hrun k hkn
    rwa [iter_total As1 As2 u k hk (by omega)] at h1

/-- A run with a tension area of 0.1 mm² and no compression steel returns after the first
pass. -/
theorem tiny_run :
    searchLoop (1 / 10) 0 1 (initState ⟨0, 0, 0, 0, 0, 0, 0, 0, 0, 0⟩)
      = some ⟨1 / 100, 109 / 11500, 1 / 50000, -17 / 500, 1 / 23, 0, 349993 / 2000,
          34993 / 2000, 10000 / 23, 10000 / 23⟩ := by
  norm_num [searchLoop, loopBody, initState, steelStress, tolerance, d, d_2, b, j_lim_val,
    f_cd_val, f_yd_val, e_yd_val, e_cu, E_s]

/-- One 16 mm bar in tension and eight 32 mm bars in compression: the loop returns after
pass 4914 with a net force below -0.1 kN. -/
theorem overshoot_run (u : SolverState) :
    searchLoop (1 * (pi * 16 * 16) / 4) (8 * (pi * 32 * 32) / 4) 4914 (initState u)
      = some (iter (1 * (pi * 16 * 16) / 4) (8 * (pi * 32 * 32) / 4) u 4914) ∧
    (iter (1 * (pi * 16 * 16) / 4) (8 * (pi * 32 * 32) / 4) u 4914).total_forces
      < -(1 / 10) := by
  have hA2 : (0 : ℚ) ≤ 8 * (pi * 32 * 32) / 4 := by norm_num [pi]
  have e13 : stress2 4913 = 60900 / 4913 := by
    norm_num [stress2, clampStress, strain2, e_cu, d_2, E_s, f_yd_val, max_def, min_def]
  have e14 : stress2 4914 = 4300 / 351 := by
    norm_num [stress2, clampStress, strain2, e_cu, d_2, E_s, f_yd_val, max_def, min_def]
  constructor
  · refine searchLoop_of_netForce _ _ hA2 u 4914 4914 (by norm_num) (by norm_num) (le_refl _)
      (Or.inr ?_) ?_
    · rw [netForce, e13]; norm_num [pi, f_yd_val, tolerance]
    · rw [netForce, e14]; norm_num [pi, f_yd_val, tolerance]
  · rw [iter_total _ _ u 4914 (by norm_num) (by norm_num), netForce, e14]
    norm_num [pi, f_yd_val]

/-! ## C11: monotonicity of the concrete force and of the tension strain -/

/-- C11: at the trial depths `x = n / 100` at which the loop computes (`1 ≤ n ≤ 22500`)
the concrete force is `-0.8 * x * b * f_cd / 1000`, it is negative, its magnitude strictly
increases with the depth, the tension strain is `e_cu * (d - x) / x`, and the tension strain
strictly decreases with the depth. -/
theorem C11_concrete_force_and_tension_strain_monotone (As1 As2 : ℚ) (u : SolverState)
    (n m : Nat) (hn : 1 ≤ n) (hnm : n < m) (hm : m ≤ 22500) :
    (iter As1 As2 u n).x_distance < (iter As1 As2 u m).x_distance ∧
    (iter As1 As2 u n).F_c
      = -1 * (8 / 10) * (iter As1 As2 u n).x_distance * b * f_cd / 1000 ∧
    (iter As1 As2 u n).F_c < 0 ∧ (iter As1 As2 u m).F_c < 0 ∧
    |(iter As1 As2 u n).F_c| < |(iter As1 As2 u m).F_c| ∧
    (iter As1 As2 u n).e_s1
      = e_cu * (d - (iter As1 As2 u n).x_distance) / (iter As1 As2 u n).x_distance ∧
    (iter As1 As2 u m).e_s1 < (iter As1 As2 u n).e_s1 := by
  have hqn : (0 : ℚ) < n := by exact_mod_cast hn
  have hqm : (0 : ℚ) < m := by exact_mod_cast (by omega : 0 < m)
  have hlt : (n : ℚ) < m := by exact_mod_cast hnm
  have hFn : -(34 / 1000 * (n : ℚ)) < 0 := by linarith
  have hFm : -(34 / 1000 * (m : ℚ)) < 0 := by linarith
  have hdiv : (50000 : ℚ) / m < 50000 / n :=
    div_lt_div_of_pos_left (by norm_num) hqn hlt
  rw [iter_ductile As1 As2 u n hn (by omega), iter_ductile As1 As2 u m (by omega) hm]
  refine ⟨by simp only; linarith, ?_, hFn, hFm, ?_, ?_, ?_⟩
  · simp only [b, f_cd_val]; ring
  · simp only
    rw [abs_of_neg hFn, abs_of_neg hFm]; linarith
  · simp only [strain1]
  · simp only
    rw [strain1_eq n hn, strain1_eq m (by omega)]
    linarith

/-- Instance of C11: passes 1 and 2 of Scenario A. -/
theorem C11_concrete_force_and_tension_strain_monotone_witness :
    (1 : Nat) ≤ 1 ∧ (1 : Nat) < 2 ∧ (2 : Nat) ≤ 22500 ∧
    |(iter (4 * (pi * 20 * 20) / 4) 0 ⟨0, 0, 0, 0, 0, 0, 0, 0, 0, 0⟩ 1).F_c|
      < |(iter (4 * (pi * 20 * 20) / 4) 0 ⟨0, 0, 0, 0, 0, 0, 0, 0, 0, 0⟩ 2).F_c| ∧
    (iter (4 * (pi * 20 * 20) / 4) 0 ⟨0, 0, 0, 0, 0, 0, 0, 0, 0, 0⟩ 2).e_s1
      < (iter (4 * (pi * 20 * 20) / 4) 0 ⟨0, 0, 0, 0, 0, 0, 0, 0, 0, 0⟩ 1).e_s1 :=
  have h := C11_concrete_force_and_tension_strain_monotone (4 * (pi * 20 * 20) / 4) 0
    ⟨0, 0, 0, 0, 0, 0, 0, 0, 0, 0⟩ 1 2 (le_refl 1) (by decide) (by decide)
  ⟨le_refl 1, by decide, by decide, h.2.2.2.2.1, h.2.2.2.2.2.2⟩

/-! ## C12: the loop returns the first depth within the tolerance -/

theorem iter_sum (As1 As2 : ℚ) (u : SolverState) (k : Nat) (hk : 1 ≤ k) (hle : k ≤ 22500) :
    (iter As1 As2 u k).F_s1 + (iter As1 As2 u k).F_c + (iter As1 As2 u k).F_s2
      = netForce As1 As2 k := by
  rw [← iter_total_eq_sum As1 As2 u k hk, iter_total As1 As2 u k hk hle]

/-- C12: the loop returns the state `s` exactly when `s` is the state of a pass `n ≥ 1`
(depth `n / 100`, within the fuel) whose net force `F_s1 + F_c + F_s2` is at most 0.1 while
the net force of every earlier pass `1 ≤ k < n` was above 0.1. The test has no lower bound:
with one 16 mm tension bar and eight 32 mm compression bars the returned net force is below
-0.1 kN. -/
theorem C12_returns_first_depth_within_tolerance (As1 As2 : ℚ) (u : SolverState) :
    (∀ (fuel : Nat) (s : SolverState),
      searchLoop As1 As2 fuel (initState u) = some s ↔
        ∃ n, 1 ≤ n ∧ n ≤ fuel ∧ s = iter As1 As2 u n ∧ s.x_distance = (n : ℚ) / 100 ∧
          s.F_s1 + s.F_c + s.F_s2 ≤ 1 / 10 ∧
          ∀ k, 1 ≤ k → k < n →
            1 / 10 < (iter As1 As2 u k).F_s1 + (iter As1 As2 u k).F_c
              + (iter As1 As2 u k).F_s2) ∧
    ∃ s, searchLoop (1 * (pi * 16 * 16) / 4) (8 * (pi * 32 * 32) / 4) 4914 (initState u)
        = some s ∧ s.F_s1 + s.F_c + s.F_s2 < -(1 / 10) := by
  constructor
  · intro fuel s
    constructor
    · intro hs
      obtain ⟨n, hn, hle, hfuel, hreq, hstop, hrun⟩ :=
        searchLoop_result_ductile As1 As2 u fuel s hs
      refine ⟨n, hn, hfuel, hreq, ?_, ?_, ?_⟩
      · rw [hreq, iter_x]
      · rw [hreq, iter_sum As1 As2 u n hn hle]
        rw [tolerance] at hstop
        exact hstop
      · intro k hk hkn
        rw [iter_sum As1 As2 u k hk (by omega)]
        have := hrun k hk hkn
        rwa [tolerance] at this
    · rintro ⟨n, hn, hfuel, hreq, _, hstop, hrun⟩
      rw [hreq] at hstop ⊢
      refine searchLoop_of_first As1 As2 u n fuel hfuel ?_ ?_
      · intro k hkn
        rcases Nat.eq_zero_or_pos k with h0 | hpos
        · subst h0; rw [iter_total_zero, tolerance]; norm_num
        · rw [iter_total_eq_sum As1 As2 u k hpos, tolerance]
          exact hrun k hpos hkn
      · rw [iter_total_eq_sum As1 As2 u n hn, tolerance]
        exact not_lt.mpr hstop
  · refine ⟨_, (overshoot_run u).1, ?_⟩
    rw [← iter_total_eq_sum _ _ u 4914 (by norm_num)]
    exact (overshoot_run u).2

/-! ## C13: passes outside the ductile range -/

/-- Once a pass falls outside the ductile range while the loop condition holds, the loop
never returns. -/
theorem searchLoop_stale_forever (As1 As2 : ℚ) :
    ∀ (fuel : Nat) (s : SolverState), j_lim < (s.x_distance + 1 / 100) / d →
      tolerance < s.total_forces → searchLoop As1 As2 fuel s = none := by
  intro fuel
  induction fuel with
  | zero =>
    intro s _ hrun
    have h0 : s.total_forces > tolerance := hrun
    simp [searchLoop, h0]
  | succ fuel ih =>
    intro s hj hrun
    have h0 : s.total_forces > tolerance := hrun
    have hnd : ¬ (s.x_distance + 1 / 100) / d ≤ j_lim := not_le.mpr hj
    rw [searchLoop, if_pos h0]
    have hbody : loopBody As1 As2 s
        = { s with x_distance := s.x_distance + 1 / 100
                   j := (s.x_distance + 1 / 100) / d } := by
      rw [loopBody]; simp only [hnd, if_false]
    refine ih _ ?_ ?_
    · rw [hbody]
      simp only
      rw [d, lt_div_iff₀ (by norm_num)] at hj ⊢
      linarith
    · rw [hbody]
      exact hrun

/-- C13: a pass of the loop body whose trial depth has `j = x / d > j_lim` only moves
`x_distance` by 0.01 (and stores the new `j`): strains, stresses, the three forces and
`total_forces` keep their values. The pass does not end the search: the loop condition is
tested again on the unchanged `total_forces`, holds again, and the loop goes on to the
next pass (it never returns from there). -/
theorem C13_non_ductile_pass_keeps_forces (As1 As2 : ℚ) (s : SolverState)
    (hj : j_lim < (s.x_distance + 1 / 100) / d) (hrun : tolerance < s.total_forces) :
    loopBody As1 As2 s
      = { s with x_distance := s.x_distance + 1 / 100
                 j := (s.x_distance + 1 / 100) / d } ∧
    (loopBody As1 As2 s).x_distance = s.x_distance + 1 / 100 ∧
    (loopBody As1 As2 s).e_s1 = s.e_s1 ∧ (loopBody As1 As2 s).e_s2 = s.e_s2 ∧
    (loopBody As1 As2 s).F_c = s.F_c ∧ (loopBody As1 As2 s).F_s1 = s.F_s1 ∧
    (loopBody As1 As2 s).F_s2 = s.F_s2 ∧
    (loopBody As1 As2 s).tension_s1 = s.tension_s1 ∧
    (loopBody As1 As2 s).tension_s2 = s.tension_s2 ∧
    (loopBody As1 As2 s).total_forces = s.total_forces ∧
    tolerance < (loopBody As1 As2 s).total_forces ∧
    (∀ fuel, searchLoop As1 As2 (fuel + 2) s
      = searchLoop As1 As2 fuel (loopBody As1 As2 (loopBody As1 As2 s))) ∧
    ∀ fuel, searchLoop As1 As2 fuel s = none := by
  have hnd : ¬ (s.x_distance + 1 / 100) / d ≤ j_lim := not_le.mpr hj
  have hbody : loopBody As1 As2 s
      = { s with x_distance := s.x_distance + 1 / 100
                 j := (s.x_distance + 1 / 100) / d } := by
    rw [loopBody]; simp only [hnd, if_false]
  have h0 : s.total_forces > tolerance := hrun
  have h1 : (loopBody As1 As2 s).total_forces > tolerance := by rw [hbody]; exact hrun
  refine ⟨hbody, by rw [hbody], by rw [hbody], by rw [hbody], by rw [hbody], by rw [hbody],
    by rw [hbody], by rw [hbody], by rw [hbody], by rw [hbody], h1, ?_, ?_⟩
  · intro fuel
    rw [searchLoop, if_pos h0, searchLoop, if_pos h1]
  · intro fuel
    exact searchLoop_stale_forever As1 As2 fuel s hj hrun

/-- Instance of C13: a state at depth 225 mm with a net force of 1 kN. -/
theorem C13_non_ductile_pass_keeps_forces_witness :
    j_lim < ((225 : ℚ) + 1 / 100) / d ∧ tolerance < (1 : ℚ) ∧
    loopBody 1 1 ⟨225, 1, 45 / 100, 2, 3, 4, 5, 6, 7, 8⟩
      = ⟨225 + 1 / 100, 1, (225 + 1 / 100) / d, 2, 3, 4, 5, 6, 7, 8⟩ :=
  have hj : j_lim < ((225 : ℚ) + 1 / 100) / d := by norm_num [j_lim_val, d]
  have hrun : tolerance < (1 : ℚ) := by norm_num [tolerance]
  ⟨hj, hrun,
    (C13_non_ductile_pass_keeps_forces 1 1 ⟨225, 1, 45 / 100, 2, 3, 4, 5, 6, 7, 8⟩ hj hrun).1⟩

/-! ## C14: derived material constants -/

/-- C14: `f_cd = a_cc * f_ck / g_c = 85/6`, `f_yd = f_yk / g_s = 10000/23` (a quotient of
rationals, nothing is truncated), `e_yd = f_yd / (1000 * E_s) = 1/460` with `E_s = 200` GPa,
`j_lim = 0.45` since `f_ck = 25 ≤ 50`, and the elastic branch `e * E_s * 1000` of the steel
law meets the plateau `f_yd` exactly at `e = e_yd`. -/
theorem C14_derived_material_constants :
    f_cd = a_cc * f_ck / g_c ∧ f_cd = 85 / 6 ∧
    f_yd = f_yk / g_s ∧ f_yd = 10000 / 23 ∧
    e_yd = f_yd / (1000 * E_s) ∧ 1000 * E_s = 200000 ∧ e_yd = 1 / 460 ∧
    f_ck = 25 ∧ f_ck ≤ 50 ∧ j_lim = 45 / 100 ∧
    e_yd * E_s * 1000 = f_yd ∧
    (∀ prev : ℚ, steelStress prev e_yd = f_yd) ∧
    (∀ prev : ℚ, steelStress prev (-e_yd) = -f_yd) := by
  have hy := e_yd_val
  have hf := f_yd_val
  refine ⟨rfl, f_cd_val, rfl, hf, rfl, by norm_num [E_s], hy, rfl, by norm_num [f_ck],
    j_lim_val, by rw [hy, hf, E_s]; norm_num, ?_, ?_⟩
  · intro prev
    exact steelStress_of_yield prev e_yd (le_refl _)
  · intro prev
    have hneg : -e_yd < 0 := by linarith [e_yd_pos]
    have hnl : ¬ (-1) * -e_yd < e_yd := by
      rw [show (-1 : ℚ) * -e_yd = e_yd by ring]; exact lt_irrefl _
    simp only [steelStress, if_pos hneg, if_neg hnl]
    ring

/-! ## C15: when the search terminates -/

/-- If some pass in the ductile range has a net force within the tolerance, the loop
returns the state of the first such pass. -/
theorem searchLoop_of_exists (As1 As2 : ℚ) (u : SolverState)
    (hex : ∃ k, 1 ≤ k ∧ k ≤ 22500 ∧ netForce As1 As2 k ≤ tolerance) :
    ∃ n, 1 ≤ n ∧ n ≤ 22500 ∧
      ∀ fuel, n ≤ fuel → searchLoop As1 As2 fuel (initState u) = some (iter As1 As2 u n) := by
  have hspec := Nat.find_spec hex
  have hmin : ∀ k, k < Nat.find hex →
      ¬ (1 ≤ k ∧ k ≤ 22500 ∧ netForce As1 As2 k ≤ tolerance) :=
    fun k hk => Nat.find_min hex hk
  refine ⟨Nat.find hex, hspec.1, hspec.2.1, ?_⟩
  intro fuel hfuel
  refine searchLoop_of_first As1 As2 u _ fuel hfuel ?_ ?_
  · intro k hk
    rcases Nat.eq_zero_or_pos k with h0 | hpos
    · subst h0; rw [iter_total_zero, tolerance]; norm_num
    · have hk2 : k ≤ 22500 := by have := hspec.2.1; omega
      rw [iter_total As1 As2 u k hpos hk2]
      have := hmin k hk
      simp only [not_and, not_le] at this
      exact this hpos hk2
  · rw [iter_total As1 As2 u _ hspec.1 hspec.2.1]
    exact not_lt.mpr hspec.2.2

/-- If no pass in the ductile range has a net force within the tolerance, the loop
condition holds after every pass. -/
theorem running_of_not_exists (As1 As2 : ℚ) (u : SolverState)
    (hno : ∀ k, 1 ≤ k → k ≤ 22500 → tolerance < netForce As1 As2 k) :
    ∀ k, tolerance < (iter As1 As2 u k).total_forces := by
  intro k
  rcases Nat.eq_zero_or_pos k with h0 | hpos
  · subst h0; rw [iter_total_zero, tolerance]; norm_num
  · by_cases hk : k ≤ 22500
    · rw [iter_total As1 As2 u k hpos hk]
      exact hno k hpos hk
    · rw [iter_total_stale As1 As2 u k (by omega)]
      exact hno 22500 (by norm_num) (le_refl _)

theorem j_lim_mul_d : j_lim * d = 225 := by rw [j_lim_val, d]; norm_num

/-- C15: for all areas the loop terminates exactly when some trial depth `n / 100` with
`n ≥ 1` and `n / 100 ≤ j_lim * d = 225` has a net force of at most 0.1; a returned depth
lies between 0.01 and 225; when there is no such depth the loop never returns, the loop
condition holds after every pass and `x_distance` exceeds every bound; this happens for
`As2 = 0` when `As1 * f_yd / 1000 > 0.8 * 225 * b * f_cd / 1000 + 0.1`. -/
theorem C15_termination_criterion (As1 As2 : ℚ) (u : SolverState) :
    j_lim * d = 225 ∧
    ((∃ fuel s, searchLoop As1 As2 fuel (initState u) = some s) ↔
      ∃ n, 1 ≤ n ∧ (iter As1 As2 u n).x_distance ≤ j_lim * d ∧
        (iter As1 As2 u n).F_s1 + (iter As1 As2 u n).F_c + (iter As1 As2 u n).F_s2
          ≤ 1 / 10) ∧
    (∀ fuel s, searchLoop As1 As2 fuel (initState u) = some s →
      1 / 100 ≤ s.x_distance ∧ s.x_distance ≤ 225) ∧
    ((¬ ∃ n, 1 ≤ n ∧ (iter As1 As2 u n).x_distance ≤ j_lim * d ∧
        (iter As1 As2 u n).F_s1 + (iter As1 As2 u n).F_c + (iter As1 As2 u n).F_s2
          ≤ 1 / 10) →
      (∀ fuel, searchLoop As1 As2 fuel (initState u) = none) ∧
      ∀ bound : ℚ, ∃ n, bound < (iter As1 As2 u n).x_distance ∧
        tolerance < (iter As1 As2 u n).total_forces) ∧
    (8 / 10 * 225 * b * f_cd / 1000 + 1 / 10 < As1 * f_yd / 1000 →
      ∀ fuel, searchLoop As1 0 fuel (initState u) = none) := by
  have hrange : ∀ n : Nat, (iter As1 As2 u n).x_distance ≤ j_lim * d ↔ n ≤ 22500 := by
    intro n
    rw [iter_x, j_lim_mul_d, div_le_iff₀ (by norm_num)]
    constructor
    · intro h
      have h2 : (n : ℚ) ≤ ((22500 : Nat) : ℚ) := by push_cast; linarith
      exact_mod_cast h2
    · intro h
      have h2 : (n : ℚ) ≤ ((22500 : Nat) : ℚ) := by exact_mod_cast h
      push_cast at h2; linarith
  have hiff : (∃ n, 1 ≤ n ∧ (iter As1 As2 u n).x_distance ≤ j_lim * d ∧
        (iter As1 As2 u n).F_s1 + (iter As1 As2 u n).F_c + (iter As1 As2 u n).F_s2
          ≤ 1 / 10) ↔ ∃ k, 1 ≤ k ∧ k ≤ 22500 ∧ netForce As1 As2 k ≤ tolerance := by
    constructor
    · rintro ⟨n, hn, hx, hN⟩
      have hle := (hrange n).mp hx
      rw [iter_sum As1 As2 u n hn hle] at hN
      exact ⟨n, hn, hle, by rw [tolerance]; exact hN⟩
    · rintro ⟨n, hn, hle, hN⟩
      refine ⟨n, hn, (hrange n).mpr hle, ?_⟩
      rw [iter_sum As1 As2 u n hn hle]
      rw [tolerance] at hN
      exact hN
  refine ⟨j_lim_mul_d, ?_, ?_, ?_, ?_⟩
  · rw [hiff]
    constructor
    · rintro ⟨fuel, s, hs⟩
      obtain ⟨n, hn, hle, _, _, hstop, _⟩ := searchLoop_result_ductile As1 As2 u fuel s hs
      exact ⟨n, hn, hle, hstop⟩
    · intro hex
      obtain ⟨n, _, _, hrun⟩ := searchLoop_of_exists As1 As2 u hex
      exact ⟨n, _, hrun n (le_refl _)⟩
  · intro fuel s hs
    obtain ⟨n, hn, hle, _, hreq, _, _⟩ := searchLoop_result_ductile As1 As2 u fuel s hs
    have h1 : (1 : ℚ) ≤ n := by exact_mod_cast hn
    have h2 : (n : ℚ) ≤ 22500 := by exact_mod_cast hle
    rw [hreq, iter_x]
    constructor
    · linarith
    · linarith
  · intro hno
    rw [hiff] at hno
    have hno2 : ∀ k, 1 ≤ k → k ≤ 22500 → tolerance < netForce As1 As2 k := by
      intro k hk hle
      by_contra hcon
      exact hno ⟨k, hk, hle, not_lt.mp hcon⟩
    have hall := running_of_not_exists As1 As2 u hno2
    refine ⟨searchLoop_never As1 As2 u hall, ?_⟩
    intro bound
    obtain ⟨n, hn⟩ := exists_nat_gt (bound * 100)
    refine ⟨n, ?_, hall n⟩
    rw [iter_x]
    linarith
  · intro hbig
    refine searchLoop_never As1 0 u (running_of_not_exists As1 0 u ?_)
    intro k _ hle
    have h2 : (k : ℚ) ≤ 22500 := by exact_mod_cast hle
    rw [b, f_cd_val] at hbig
    rw [netForce, tolerance]
    linarith

/-! ## C16: the net force decreases along the ductile trial depths -/

/-- C16, as amended: for areas `0 ≤ As1 ≤ b * h` and `0 ≤ As2 ≤ b * h` the net force stored
after a pass strictly decreases along the passes `1, ..., 22500` (depths 0.01 to 225):
`F_s1` is constant, `F_c` strictly decreases and `F_s2` never increases, the steel forces
being bounded by `b * h * f_yd / 1000`. Hence a net force within the tolerance stays within
the tolerance at all later ductile depths. -/
theorem C16_net_force_strictly_decreasing (As1 As2 : ℚ) (u : SolverState) (n m : Nat)
    (h1 : 0 ≤ As1) (h1b : As1 ≤ b * h) (h2 : 0 ≤ As2) (h2b : As2 ≤ b * h)
    (hn : 1 ≤ n) (hnm : n < m) (hm : m ≤ 22500) :
    (iter As1 As2 u m).total_forces < (iter As1 As2 u n).total_forces ∧
    (iter As1 As2 u m).F_s1 + (iter As1 As2 u m).F_c + (iter As1 As2 u m).F_s2
      < (iter As1 As2 u n).F_s1 + (iter As1 As2 u n).F_c + (iter As1 As2 u n).F_s2 ∧
    (iter As1 As2 u n).F_s1 = As1 * f_yd / 1000 ∧
    (iter As1 As2 u m).F_s1 = (iter As1 As2 u n).F_s1 ∧
    (iter As1 As2 u m).F_c < (iter As1 As2 u n).F_c ∧
    (iter As1 As2 u m).F_s2 ≤ (iter As1 As2 u n).F_s2 ∧
    ((iter As1 As2 u n).total_forces ≤ 1 / 10 → (iter As1 As2 u m).total_forces ≤ 1 / 10) ∧
    0 ≤ (iter As1 As2 u n).F_s1 ∧ (iter As1 As2 u n).F_s1 ≤ b * h * f_yd / 1000 ∧
    |(iter As1 As2 u n).F_s2| ≤ b * h * f_yd / 1000 := by
  have hf := f_yd_pos
  have hlt := netForce_strictAnti As1 As2 h2 hn hnm
  have hs := stress2_antitone hn hnm.le
  have hq : (n : ℚ) < m := by exact_mod_cast hnm
  have h3 : As2 * stress2 m ≤ As2 * stress2 n := mul_le_mul_of_nonneg_left hs h2
  have hnle : n ≤ 22500 := by omega
  have hmle : 1 ≤ m := by omega
  refine ⟨?_, ?_, ?_, ?_, ?_, ?_, ?_, ?_, ?_, ?_⟩
  · rw [iter_total As1 As2 u m hmle hm, iter_total As1 As2 u n hn hnle]
    exact hlt
  · rw [iter_sum As1 As2 u m hmle hm, iter_sum As1 As2 u n hn hnle]
    exact hlt
  · rw [iter_ductile As1 As2 u n hn hnle]
  · rw [iter_ductile As1 As2 u n hn hnle, iter_ductile As1 As2 u m hmle hm]
  · rw [iter_ductile As1 As2 u n hn hnle, iter_ductile As1 As2 u m hmle hm]
    simp only
    linarith
  · rw [iter_ductile As1 As2 u n hn hnle, iter_ductile As1 As2 u m hmle hm]
    simp only
    linarith
  · rw [iter_total As1 As2 u m hmle hm, iter_total As1 As2 u n hn hnle]
    intro hle
    linarith
  · rw [iter_ductile As1 As2 u n hn hnle]
    simp only
    positivity
  · rw [iter_ductile As1 As2 u n hn hnle]
    simp only
    have : As1 * f_yd ≤ b * h * f_yd := mul_le_mul_of_nonneg_right h1b hf.le
    linarith
  · rw [iter_ductile As1 As2 u n hn hnle]
    simp only
    have hsn := abs_stress2_le n
    have hbh : (0 : ℚ) ≤ b * h := le_trans h2 h2b
    have h4 : |As2 * stress2 n| ≤ b * h * f_yd := by
      rw [abs_mul, abs_of_nonneg h2]
      exact mul_le_mul h2b hsn (abs_nonneg _) hbh
    rw [abs_div, abs_of_pos (by norm_num : (0 : ℚ) < 1000)]
    exact div_le_div_of_nonneg_right h4 (by norm_num)

/-- Instance of C16 as amended: passes 7482 and 7483 of Scenario B. -/
theorem C16_net_force_strictly_decreasing_witness :
    (0 : ℚ) ≤ 4 * (pi * 20 * 20) / 4 ∧ 4 * (pi * 20 * 20) / 4 ≤ b * h ∧
    (1 : Nat) ≤ 7482 ∧ (7482 : Nat) < 7483 ∧ (7483 : Nat) ≤ 22500 ∧
    (iter (4 * (pi * 20 * 20) / 4) (4 * (pi * 20 * 20) / 4)
        ⟨0, 0, 0, 0, 0, 0, 0, 0, 0, 0⟩ 7483).total_forces
      < (iter (4 * (pi * 20 * 20) / 4) (4 * (pi * 20 * 20) / 4)
        ⟨0, 0, 0, 0, 0, 0, 0, 0, 0, 0⟩ 7482).total_forces :=
  have hA : (0 : ℚ) ≤ 4 * (pi * 20 * 20) / 4 := by norm_num [pi]
  have hB : 4 * (pi * 20 * 20) / 4 ≤ b * h := by norm_num [pi, b, h]
  ⟨hA, hB, by norm_num, by norm_num, by norm_num,
    (C16_net_force_strictly_decreasing (4 * (pi * 20 * 20) / 4) (4 * (pi * 20 * 20) / 4)
      ⟨0, 0, 0, 0, 0, 0, 0, 0, 0, 0⟩ 7482 7483 hA hB hA hB (by norm_num) (by norm_num)
      (by norm_num)).1⟩

set_option maxRecDepth 1000000 in
/-- C16 as stated fails for a very large tension area. In the binary64 replay of the run on
the input `2000000000 1000 0 0` (two thousand million bars of 1000 mm, no compression
steel) the loop is running, passes 2 and 3 both take the branch `j <= j_lim`, and the net
force stored after pass 3 is not smaller than the one stored after pass 2: the step of
0.034 kN of the concrete force is lost in the rounding of `F_s1 + F_c`. -/
theorem C16_counterexample :
    F64.le ⟨0, 0⟩ (accumulate64 ⟨0, 0⟩ []) = true ∧
    F64.lt tolerance64
      (iter64 (accumulate64 ⟨0, 0⟩ [(2000000000, 1000)]) (accumulate64 ⟨0, 0⟩ []) 1).total_forces
      = true ∧
    F64.lt tolerance64
      (iter64 (accumulate64 ⟨0, 0⟩ [(2000000000, 1000)]) (accumulate64 ⟨0, 0⟩ []) 2).total_forces
      = true ∧
    F64.le (iter64 (accumulate64 ⟨0, 0⟩ [(2000000000, 1000)]) (accumulate64 ⟨0, 0⟩ []) 2).j
      j_lim64 = true ∧
    F64.le (iter64 (accumulate64 ⟨0, 0⟩ [(2000000000, 1000)]) (accumulate64 ⟨0, 0⟩ []) 3).j
      j_lim64 = true ∧
    F64.lt
      (iter64 (accumulate64 ⟨0, 0⟩ [(2000000000, 1000)]) (accumulate64 ⟨0, 0⟩ []) 3).F_c
      (iter64 (accumulate64 ⟨0, 0⟩ [(2000000000, 1000)]) (accumulate64 ⟨0, 0⟩ []) 2).F_c
      = true ∧
    F64.lt
      (iter64 (accumulate64 ⟨0, 0⟩ [(2000000000, 1000)]) (accumulate64 ⟨0, 0⟩ []) 3).total_forces
      (iter64 (accumulate64 ⟨0, 0⟩ [(2000000000, 1000)]) (accumulate64 ⟨0, 0⟩ []) 2).total_forces
      = false := by
  decide

/-! ## C17: the tension steel always yields -/

theorem yieldReport_of_yield (e : ℚ) (he : e_yd ≤ e) : yieldReport e = some YieldMsg.yield := by
  have hpos : e > 0 := lt_of_lt_of_le e_yd_pos he
  simp only [yieldReport, if_pos hpos, if_neg (not_lt.mpr he)]

/-- C17: after every pass in the ductile range (`0 < x ≤ 225`) the tension strain is at
least `e_yd > 0`, the tension stress is `+f_yd` and `F_s1 = As1 * f_yd / 1000`. So every
state the loop returns has a yielded tension layer, the report prints the yield message
for it, and no finished run prints the other message for the tension layer. -/
theorem C17_tension_steel_always_yields (As1 As2 : ℚ) (u : SolverState) :
    0 < e_yd ∧
    (∀ n, 1 ≤ n → n ≤ 22500 →
      0 < (iter As1 As2 u n).x_distance ∧ (iter As1 As2 u n).x_distance ≤ j_lim * d ∧
      e_yd ≤ (iter As1 As2 u n).e_s1 ∧ (iter As1 As2 u n).tension_s1 = f_yd ∧
      (iter As1 As2 u n).F_s1 = As1 * f_yd / 1000) ∧
    (∀ fuel s, searchLoop As1 As2 fuel (initState u) = some s →
      e_yd ≤ s.e_s1 ∧ yieldReport s.e_s1 = some YieldMsg.yield) ∧
    (∀ input fuel r, mainProgram u input fuel = RunResult.finished r →
      r.tensionMsg = some YieldMsg.yield ∧ r.tensionMsg ≠ some YieldMsg.notYield) := by
  have hret : ∀ (A1 A2 : ℚ) (fuel : Nat) (s : SolverState),
      searchLoop A1 A2 fuel (initState u) = some s → e_yd ≤ s.e_s1 := by
    intro A1 A2 fuel s hs
    obtain ⟨n, hn, hle, _, hreq, _, _⟩ := searchLoop_result_ductile A1 A2 u fuel s hs
    rw [hreq, iter_ductile A1 A2 u n hn hle]
    exact strain1_ge_yield n hn hle
  refine ⟨e_yd_pos, ?_, ?_, ?_⟩
  · intro n hn hle
    have hq : (0 : ℚ) < n := by exact_mod_cast hn
    have h2 : (n : ℚ) ≤ 22500 := by exact_mod_cast hle
    rw [iter_ductile As1 As2 u n hn hle, j_lim_mul_d]
    refine ⟨by simp only; positivity, by simp only; linarith, strain1_ge_yield n hn hle,
      rfl, rfl⟩
  · intro fuel s hs
    exact ⟨hret As1 As2 fuel s hs, yieldReport_of_yield _ (hret As1 As2 fuel s hs)⟩
  · intro input fuel r hr
    obtain ⟨A1, A2, s, hs, _, _, hmsg, _, _, _⟩ := mainProgram_finished_inv u input fuel r hr
    have hy := yieldReport_of_yield _ (hret A1 A2 fuel s hs)
    rw [hmsg, hy]
    exact ⟨rfl, by simp⟩

/-- Instance of C17: the run with a tension area of 0.1 mm² returns a state whose tension
strain is beyond the yield strain. -/
theorem C17_tension_steel_always_yields_witness :
    e_yd ≤ (349993 / 2000 : ℚ) ∧ yieldReport (349993 / 2000) = some YieldMsg.yield :=
  (C17_tension_steel_always_yields (1 / 10) 0 ⟨0, 0, 0, 0, 0, 0, 0, 0, 0, 0⟩).2.2.1 1 _
    tiny_run

/-! ## C18: force balance of a singly reinforced section -/

/-- C18: with `As2 = 0` and `As1 > 0`, whenever the loop returns, `F_s2 = 0` and
`|F_c + F_s1| ≤ 0.1`. The net force drops by exactly
`0.8 * 0.01 * b * f_cd / 1000 = 0.034` per pass in the ductile range, so the returned net
force lies in `(0.1 - 0.034, 0.1]`, except when the loop returns after the very first pass
(`x = 0.01`), where it lies in `(-0.034, 0.1]`. -/
theorem C18_singly_reinforced_balance (As1 : ℚ) (u : SolverState) (fuel : Nat)
    (s : SolverState) (h1 : 0 < As1)
    (hs : searchLoop As1 0 fuel (initState u) = some s) :
    s.F_s2 = 0 ∧ s.total_forces = s.F_c + s.F_s1 ∧ |s.F_c + s.F_s1| ≤ 1 / 10 ∧
    8 / 10 * (1 / 100) * b * f_cd / 1000 = 34 / 1000 ∧
    (∀ k, 1 ≤ k → k < 22500 →
      (iter As1 0 u (k + 1)).total_forces = (iter As1 0 u k).total_forces - 34 / 1000) ∧
    (s.x_distance = 1 / 100 → -(34 / 1000) < s.F_c + s.F_s1 ∧ s.F_c + s.F_s1 ≤ 1 / 10) ∧
    (s.x_distance ≠ 1 / 100 →
      1 / 10 - 34 / 1000 < s.F_c + s.F_s1 ∧ s.F_c + s.F_s1 ≤ 1 / 10) := by
  obtain ⟨n, hn, hle, _, hreq, hstop, hrun⟩ := searchLoop_result_ductile As1 0 u fuel s hs
  have hF : 0 < As1 * f_yd / 1000 := by
    have := f_yd_pos
    positivity
  have hnet : ∀ k : Nat, netForce As1 0 k = As1 * f_yd / 1000 - 34 / 1000 * (k : ℚ) := by
    intro k
    rw [netForce]; ring
  rw [hnet, tolerance] at hstop
  have hsum : s.F_c + s.F_s1 = As1 * f_yd / 1000 - 34 / 1000 * (n : ℚ) := by
    rw [hreq, iter_ductile As1 0 u n hn hle]; ring
  have hlow : n = 1 ∨ 1 / 10 - 34 / 1000 < As1 * f_yd / 1000 - 34 / 1000 * (n : ℚ) := by
    rcases Nat.eq_or_lt_of_le hn with h | h
    · exact Or.inl h.symm
    · right
      have hp := hrun (n - 1) (by omega) (by omega)
      rw [hnet, tolerance] at hp
      have hc : ((n - 1 : Nat) : ℚ) = (n : ℚ) - 1 := by
        rw [Nat.cast_sub hn]; norm_num
      rw [hc] at hp
      linarith
  have hx : s.x_distance = 1 / 100 ↔ n = 1 := by
    rw [hreq, iter_x]
    constructor
    · intro h
      have h2 : (n : ℚ) = ((1 : Nat) : ℚ) := by push_cast; linarith
      exact_mod_cast h2
    · intro h
      rw [h]; norm_num
  refine ⟨?_, ?_, ?_, ?_, ?_, ?_, ?_⟩
  · rw [hreq, iter_ductile As1 0 u n hn hle]
    simp only
    ring
  · rw [hsum, hreq, iter_total As1 0 u n hn hle, hnet]
  · rw [hsum, abs_le]
    constructor
    · rcases hlow with h | h
      · rw [h]; push_cast; linarith
      · linarith
    · exact hstop
  · rw [b, f_cd_val]; norm_num
  · intro k hk hklt
    rw [iter_total As1 0 u (k + 1) (by omega) (by omega), iter_total As1 0 u k hk (by omega),
      hnet, hnet]
    push_cast
    ring
  · intro h
    rw [hsum]
    rw [hx.mp h]
    push_cast
    constructor
    · linarith
    · rw [hx.mp h] at hstop
      push_cast at hstop
      exact hstop
  · intro h
    rw [hsum]
    rcases hlow with h1n | hl
    · exact absurd (hx.mpr h1n) h
    · exact ⟨hl, hstop⟩

/-- Instance of C18: a tension area of 0.1 mm²; the loop returns after the first pass with
a net force of 109/11500 kN. -/
theorem C18_singly_reinforced_balance_witness :
    (0 : ℚ) < 1 / 10 ∧
    searchLoop (1 / 10) 0 1 (initState ⟨0, 0, 0, 0, 0, 0, 0, 0, 0, 0⟩)
      = some ⟨1 / 100, 109 / 11500, 1 / 50000, -17 / 500, 1 / 23, 0, 349993 / 2000,
          34993 / 2000, 10000 / 23, 10000 / 23⟩ ∧
    |(-17 / 500 : ℚ) + 1 / 23| ≤ 1 / 10 :=
  ⟨by norm_num, tiny_run,
    (C18_singly_reinforced_balance (1 / 10) ⟨0, 0, 0, 0, 0, 0, 0, 0, 0, 0⟩ 1 _ (by norm_num)
      tiny_run).2.2.1⟩

/-! ## C19: the design moment is positive -/

/-- C19: whenever the loop returns, for any areas, `F_c < 0`, `x ≤ 225`, the lever arm
`d - 0.4 * x` is positive, and the design moment satisfies
`M_Rd ≥ |F_c| * (d - 0.4 * x) / 1000 > 0`. -/
theorem C19_design_moment_positive (As1 As2 : ℚ) (u : SolverState) (fuel : Nat)
    (s : SolverState) (hs : searchLoop As1 As2 fuel (initState u) = some s) :
    s.F_c < 0 ∧ s.x_distance ≤ 225 ∧ 0 < d - 4 / 10 * s.x_distance ∧
    0 < |s.F_c| * (d - 4 / 10 * s.x_distance) / 1000 ∧
    |s.F_c| * (d - 4 / 10 * s.x_distance) / 1000 ≤ designMoment s ∧
    0 < designMoment s := by
  obtain ⟨n, hn, hle, _, hreq, _, _⟩ := searchLoop_result_ductile As1 As2 u fuel s hs
  have hq : (0 : ℚ) < n := by exact_mod_cast hn
  have h2 : (n : ℚ) ≤ 22500 := by exact_mod_cast hle
  have hFc : s.F_c < 0 := by
    rw [hreq, iter_ductile As1 As2 u n hn hle]
    simp only
    linarith
  have hx : s.x_distance ≤ 225 := by
    rw [hreq, iter_x]; linarith
  have harm : 0 < d - 4 / 10 * s.x_distance := by rw [d]; linarith
  have habs : 0 < |s.F_c| := abs_pos.mpr hFc.ne
  have hpos : 0 < |s.F_c| * (d - 4 / 10 * s.x_distance) / 1000 := by positivity
  have hM : designMoment s
      = (|s.F_c| * (d - 4 / 10 * s.x_distance) + |s.F_s2| * (d - d_2)) / 1000 := by
    simp only [designMoment]
    by_cases hc : s.F_c < 0
    · by_cases h2 : s.F_s2 < 0
      · rw [if_pos hc, if_pos h2, abs_of_neg hc, abs_of_neg h2]; ring
      · rw [if_pos hc, if_neg h2, abs_of_neg hc, abs_of_nonneg (not_lt.mp h2)]; ring
    · exact absurd hFc hc
  have hF2 : 0 ≤ |s.F_s2| * (d - d_2) := by
    have : (0 : ℚ) ≤ d - d_2 := by rw [d, d_2]; norm_num
    exact mul_nonneg (abs_nonneg _) this
  have hge : |s.F_c| * (d - 4 / 10 * s.x_distance) / 1000 ≤ designMoment s := by
    rw [hM, div_le_div_iff_of_pos_right (by norm_num)]
    linarith
  exact ⟨hFc, hx, harm, hpos, hge, lt_of_lt_of_le hpos hge⟩

/-- Instance of C19: a tension area of 0.1 mm²; the returned state has `F_c = -17/500`. -/
theorem C19_design_moment_positive_witness :
    searchLoop (1 / 10) 0 1 (initState ⟨0, 0, 0, 0, 0, 0, 0, 0, 0, 0⟩)
      = some ⟨1 / 100, 109 / 11500, 1 / 50000, -17 / 500, 1 / 23, 0, 349993 / 2000,
          34993 / 2000, 10000 / 23, 10000 / 23⟩ ∧
    0 < designMoment ⟨1 / 100, 109 / 11500, 1 / 50000, -17 / 500, 1 / 23, 0, 349993 / 2000,
          34993 / 2000, 10000 / 23, 10000 / 23⟩ :=
  ⟨tiny_run,
    (C19_design_moment_positive (1 / 10) 0 ⟨0, 0, 0, 0, 0, 0, 0, 0, 0, 0⟩ 1 _
      tiny_run).2.2.2.2.2⟩

end BeamMRd
